import Mathlib

/-!
# HCI command sequencer (`mcp_hci_sequencer.c`)

A shallow embedding of the sequencer of TI's FM stack and the properties of
its replace-in-flight protocol.

Conventions of the embedding.

* The context `MCP_HciSeq_Context` is passed and returned explicitly.
* Pointers (`void*` user data, parameter buffers, function pointers) are
  natural numbers; a function pointer that may be `NULL` is an `Option`.
* Arrays are maps from the index to the element: `commandsSequence i` is
  `commandsSequence[i]`, the capacity being `HCI_SEQ_MAX_CMDS_PER_SEQUENCE`,
  a constant of the absent header that every operation takes as `maxCmds`.
* Everything the sequencer calls outside itself is recorded, in call order,
  in a trace of `Action`s. What the collaborators do is an argument:
  `prep` for the preparation functions, `userCb` for the user's completion
  callbacks and `tSend` for the status the transport returns to the one
  send an operation makes.
-/

namespace HciSeq

/-- Modelled from the spec: `BtHciIfStatus` is declared in a header that is not
among the sources. The four enumerators the source names are kept, the others
are `BT_HCI_IF_STATUS_OTHER`. -/
inductive BtHciIfStatus where
  | BT_HCI_IF_STATUS_SUCCESS
  | BT_HCI_IF_STATUS_FAILED
  | BT_HCI_IF_STATUS_PENDING
  | BT_HCI_IF_STATUS_INTERNAL_ERROR
  | BT_HCI_IF_STATUS_OTHER (code : Nat)
  deriving DecidableEq, Repr

open BtHciIfStatus

/-- Modelled from the spec: `McpHalCoreId` is declared in a header that is not
among the sources. The source names the BT and the FM core; any other value of
the type is `MCP_HAL_CORE_ID_OTHER`. -/
inductive McpHalCoreId where
  | MCP_HAL_CORE_ID_BT
  | MCP_HAL_CORE_ID_FM
  | MCP_HAL_CORE_ID_OTHER (code : Nat)
  deriving DecidableEq, Repr

open McpHalCoreId

/-- Modelled from the spec: `BtHciIfClientEvent` is declared in a header that is
not among the sources. The completion event carries a status and the user
context pointer (the only field the source touches); `payload` stands for every
other field. -/
structure BtHciIfClientEvent where
  status : BtHciIfStatus
  payload : Nat
  pUserData : Nat
  deriving DecidableEq, Repr

/-- One scheduled step, `McpHciSeqCmd`: the preparation function and the user
data it is called with. -/
structure McpHciSeqCmd where
  fCommandPrepCB : Nat
  pUserData : Nat
  deriving DecidableEq, Repr

/-- The prepared command, `McpHciSeqCommand`, with the fields the source reads.
`callback = none` is a `NULL` callback. -/
structure McpHciSeqCommand where
  eHciOpcode : Nat
  pHciCmdParms : Nat
  uhciCmdParmsLen : Nat
  uCompletionEvent : Nat
  callback : Option Nat
  pUserData : Nat
  deriving DecidableEq, Repr

/-- The sequencer context, `MCP_HciSeq_Context`, with the fields the source
uses. -/
structure MCP_HciSeq_Context where
  handle : Nat
  coreId : McpHalCoreId
  commandsSequence : Nat → McpHciSeqCmd
  uCommandCount : Nat
  uCurrentCommandIdx : Nat
  bCallCBOnlyForLastCmd : Bool
  bCancelFlag : Bool
  command : McpHciSeqCommand

/-- What the sequencer calls outside itself.
* `prep f d`: the preparation function `f` was called with user data `d`;
* `sendBt`: `BT_HCI_IF_SendHciCommand` with the handle and the command fields;
* `sendFm`: `FM_TRANSPORT_IF_SendFmVacCommand` with the command fields;
* `callback cb ev idx`: the function pointer `cb` was called with the event
  `ev` while `uCurrentCommandIdx` was `idx` (`cb = none`: a call through `NULL`);
* `registerClient`: `BT_HCI_IF_RegisterClient` on the given interface object. -/
inductive Action where
  | prep (fCommandPrepCB pUserData : Nat)
  | sendBt (handle eHciOpcode pHciCmdParms uhciCmdParmsLen uCompletionEvent : Nat)
  | sendFm (pHciCmdParms uhciCmdParmsLen : Nat)
  | callback (cb : Option Nat) (ev : BtHciIfClientEvent) (idx : Nat)
  | registerClient (hciIfObj : Nat)
  deriving DecidableEq, Repr

/-- What a preparation function does: called as `f(&command, pUserData)` it
leaves a new content in `command`. -/
abbrev PrepSem := Nat → McpHciSeqCommand → Nat → McpHciSeqCommand

/-- What a user callback does to the sequencer when it is called with an event
(it may call back into the sequencer), and the actions this causes. -/
abbrev CbSem :=
  Nat → BtHciIfClientEvent → MCP_HciSeq_Context → MCP_HciSeq_Context × List Action

/-- User callbacks that do not call back into the sequencer. -/
def noReentry : CbSem := fun _ _ ctx => (ctx, [])

/-- The number of values of a `McpU32`, the type of the counters:
`uCurrentCommandIdx++` wraps at this value. -/
def McpU32_MOD : Nat := 4294967296

/-- The call `MCP_HAL_MEMORY_MemCopy (dst, src, n * sizeof (McpHciSeqCmd))` on
two arrays of command slots: the first `n` slots of `dst` become those of
`src`. -/
def MCP_HAL_MEMORY_MemCopy (dst src : Nat → McpHciSeqCmd) (n : Nat) : Nat → McpHciSeqCmd :=
  fun i => if i < n then src i else dst i

/-- The call `commandsSequence[uCurrentCommandIdx].fCommandPrepCB (&command,
commandsSequence[uCurrentCommandIdx].pUserData)` (lines 125-126, 219-220). -/
def prepareCurrent (prep : PrepSem) (ctx : MCP_HciSeq_Context) :
    MCP_HciSeq_Context × List Action :=
  let slot := ctx.commandsSequence ctx.uCurrentCommandIdx
  ({ ctx with command := prep slot.fCommandPrepCB ctx.command slot.pUserData },
   [Action.prep slot.fCommandPrepCB slot.pUserData])

/-- The send of the prepared command on the transport of the context's core
(lines 129-147, 223-240): the status the caller gets and the send made. For a
core that is neither BT nor FM nothing is sent and the status is
`BT_HCI_IF_STATUS_INTERNAL_ERROR`. -/
def sendCurrent (tSend : BtHciIfStatus) (ctx : MCP_HciSeq_Context) :
    BtHciIfStatus × List Action :=
  if ctx.coreId = MCP_HAL_CORE_ID_BT then
    (tSend, [Action.sendBt ctx.handle ctx.command.eHciOpcode ctx.command.pHciCmdParms
              ctx.command.uhciCmdParmsLen ctx.command.uCompletionEvent])
  else if ctx.coreId = MCP_HAL_CORE_ID_FM then
    (tSend, [Action.sendFm ctx.command.pHciCmdParms ctx.command.uhciCmdParmsLen])
  else
    (BT_HCI_IF_STATUS_INTERNAL_ERROR, [])

/-- The call `pContext->command.callback (pEvent)` (lines 204, 247): the call
is recorded, then the callback runs. -/
def callCommandCallback (userCb : CbSem) (ctx : MCP_HciSeq_Context)
    (ev : BtHciIfClientEvent) : MCP_HciSeq_Context × List Action :=
  match ctx.command.callback with
  | none => (ctx, [Action.callback none ev ctx.uCurrentCommandIdx])
  | some f =>
    let r := userCb f ev ctx
    (r.1, Action.callback (some f) ev ctx.uCurrentCommandIdx :: r.2)

/-- The function `MCP_HciSeq_CreateSequence` (lines 34-57). `reg` is what
`BT_HCI_IF_RegisterClient` returns and the handle it stores. -/
def MCP_HciSeq_CreateSequence (reg : BtHciIfStatus × Nat) (ctx : MCP_HciSeq_Context)
    (hciIfObj : Nat) (coreId : McpHalCoreId) : MCP_HciSeq_Context × List Action :=
  let c := { ctx with bCancelFlag := false, uCommandCount := 0, uCurrentCommandIdx := 0,
                      coreId := coreId }
  if c.coreId = MCP_HAL_CORE_ID_BT then
    ({ c with handle := reg.2 }, [Action.registerClient hciIfObj])
  else
    (c, [])

/-- The function `MCP_HciSeq_RunSequence` (lines 89-149): the status returned,
the context left and the calls made. -/
def MCP_HciSeq_RunSequence (maxCmds : Nat) (prep : PrepSem) (tSend : BtHciIfStatus)
    (ctx : MCP_HciSeq_Context) (uCommandCount : Nat) (pCommands : Nat → McpHciSeqCmd)
    (bCallCbOnlyAfterLastCmd : Bool) : BtHciIfStatus × MCP_HciSeq_Context × List Action :=
  if maxCmds < uCommandCount then
    (BT_HCI_IF_STATUS_FAILED, ctx, [])
  else
    let c1 := { ctx with
      bCallCBOnlyForLastCmd := bCallCbOnlyAfterLastCmd
      commandsSequence := MCP_HAL_MEMORY_MemCopy ctx.commandsSequence pCommands uCommandCount
      uCurrentCommandIdx := 0 }
    if c1.uCommandCount > 0 then
      (BT_HCI_IF_STATUS_PENDING,
       { c1 with uCommandCount := uCommandCount, bCancelFlag := true }, [])
    else
      let c2 := { c1 with uCommandCount := uCommandCount }
      let p := prepareCurrent prep c2
      let s := sendCurrent tSend p.1
      (s.1, p.1, p.2 ++ s.2)

/-- The function `MCP_HciSeq_CancelSequence` (lines 158-170). -/
def MCP_HciSeq_CancelSequence (ctx : MCP_HciSeq_Context) :
    MCP_HciSeq_Context × List Action :=
  if 0 < ctx.uCommandCount then
    ({ ctx with bCancelFlag := true, uCommandCount := 0, uCurrentCommandIdx := 0 }, [])
  else
    (ctx, [])

/-- The first half of `_MCP_HciSeq_callback` (lines 188-213): the cancel flag is
tested, and either the index advances and the callback of the completed command
is called, or the flag is cleared. Returns the context, the event as the
handler leaves it, and the calls made. -/
def completionAck (userCb : CbSem) (ctx : MCP_HciSeq_Context) (pEvent : BtHciIfClientEvent) :
    MCP_HciSeq_Context × BtHciIfClientEvent × List Action :=
  if ctx.bCancelFlag = false then
    let c := { ctx with uCurrentCommandIdx := (ctx.uCurrentCommandIdx + 1) % McpU32_MOD }
    if c.command.callback ≠ none then
      if (!c.bCallCBOnlyForLastCmd) ||
          (c.bCallCBOnlyForLastCmd && decide (c.uCurrentCommandIdx ≥ c.uCommandCount)) then
        let ev := { pEvent with pUserData := c.command.pUserData }
        let r := callCommandCallback userCb c ev
        (r.1, ev, r.2)
      else
        (c, pEvent, [])
    else
      (c, pEvent, [])
  else
    ({ ctx with bCancelFlag := false }, pEvent, [])

/-- The second half of `_MCP_HciSeq_callback` (lines 215-256): the next command
is prepared and sent, its callback being called at once when the send is not
pending; or the sequence is marked as not running. -/
def completionNext (prep : PrepSem) (userCb : CbSem) (tSend : BtHciIfStatus)
    (ctx : MCP_HciSeq_Context) (pEvent : BtHciIfClientEvent) :
    MCP_HciSeq_Context × List Action :=
  if ctx.uCurrentCommandIdx < ctx.uCommandCount then
    let p := prepareCurrent prep ctx
    let s := sendCurrent tSend p.1
    if s.1 ≠ BT_HCI_IF_STATUS_PENDING then
      let ev := { pEvent with pUserData := p.1.command.pUserData }
      let r := callCommandCallback userCb p.1 ev
      (r.1, p.2 ++ s.2 ++ r.2)
    else
      (p.1, p.2 ++ s.2)
  else
    ({ ctx with uCommandCount := 0, uCurrentCommandIdx := 0 }, [])

/-- The completion handler `_MCP_HciSeq_callback` (lines 180-257), called by the
transport with the event of the command that completed; `ctx` is the context
the event's `pUserData` points to. -/
def _MCP_HciSeq_callback (prep : PrepSem) (userCb : CbSem) (tSend : BtHciIfStatus)
    (ctx : MCP_HciSeq_Context) (pEvent : BtHciIfClientEvent) :
    MCP_HciSeq_Context × List Action :=
  let a := completionAck userCb ctx pEvent
  let n := completionNext prep userCb tSend a.1 a.2.1
  (n.1, a.2.2 ++ n.2)

/-- One operation on the sequencer: a call of `MCP_HciSeq_RunSequence` (with the
status its send gets, should it send), a call of `MCP_HciSeq_CancelSequence`, or
the transport delivering a completion event to `_MCP_HciSeq_callback` (with the
status the handler's send gets, should it send). -/
inductive Op where
  | run (uCommandCount : Nat) (pCommands : Nat → McpHciSeqCmd)
      (bCallCbOnlyAfterLastCmd : Bool) (tSend : BtHciIfStatus)
  | cancel
  | complete (pEvent : BtHciIfClientEvent) (tSend : BtHciIfStatus)

/-- The context left by one operation and the calls it makes. -/
def step (maxCmds : Nat) (prep : PrepSem) (userCb : CbSem) (ctx : MCP_HciSeq_Context) :
    Op → MCP_HciSeq_Context × List Action
  | Op.run n cmds b t => (MCP_HciSeq_RunSequence maxCmds prep t ctx n cmds b).2
  | Op.cancel => MCP_HciSeq_CancelSequence ctx
  | Op.complete ev t => _MCP_HciSeq_callback prep userCb t ctx ev

/-- The context left by a list of operations done one after the other, and all
the calls made, in order. -/
def exec (maxCmds : Nat) (prep : PrepSem) (userCb : CbSem) :
    MCP_HciSeq_Context → List Op → MCP_HciSeq_Context × List Action
  | ctx, [] => (ctx, [])
  | ctx, op :: ops =>
    let r := step maxCmds prep userCb ctx op
    let r2 := exec maxCmds prep userCb r.1 ops
    (r2.1, r.2 ++ r2.2)

/-- The action is a call of a preparation function. -/
def Action.isPrep : Action → Bool
  | Action.prep _ _ => true
  | _ => false

/-- The action is a send on one of the two transports. -/
def Action.isSend : Action → Bool
  | Action.sendBt _ _ _ _ _ => true
  | Action.sendFm _ _ => true
  | _ => false

/-- The action is a call of a command's completion callback. -/
def Action.isCallback : Action → Bool
  | Action.callback _ _ _ => true
  | _ => false

/-- The send of the command `cmd` on the transport of core `coreId` with the
client handle `handle` (lines 132-145, 226-239). -/
def sendOf (coreId : McpHalCoreId) (handle : Nat) (cmd : McpHciSeqCommand) : Action :=
  if coreId = MCP_HAL_CORE_ID_BT then
    Action.sendBt handle cmd.eHciOpcode cmd.pHciCmdParms cmd.uhciCmdParmsLen
      cmd.uCompletionEvent
  else
    Action.sendFm cmd.pHciCmdParms cmd.uhciCmdParmsLen

/-! ## Scenarios and the description of their traces -/

/-- The operation that submits the request `m` (count, commands, suppress flag,
status of the send). -/
def runOp (m : Nat × (Nat → McpHciSeqCmd) × Bool × BtHciIfStatus) : Op :=
  Op.run m.1 m.2.1 m.2.2.1 m.2.2.2

/-- The replacement scenario: on `ctx` the sequence A is run, its send pending;
then the submissions `mids` are made, then the sequence B is submitted; no
completion is delivered meanwhile. -/
def replaceScenario (maxCmds : Nat) (prep : PrepSem) (ctx : MCP_HciSeq_Context)
    (cA : Nat) (seqA : Nat → McpHciSeqCmd) (bA : Bool)
    (mids : List (Nat × (Nat → McpHciSeqCmd) × Bool × BtHciIfStatus))
    (cB : Nat) (seqB : Nat → McpHciSeqCmd) (bB : Bool) (tB : BtHciIfStatus) :
    MCP_HciSeq_Context × List Action :=
  exec maxCmds prep noReentry ctx
    (Op.run cA seqA bA BT_HCI_IF_STATUS_PENDING :: (mids.map runOp ++ [Op.run cB seqB bB tB]))

/-- The callback the first half of the handler delivers for the command that
completed, when the cancel flag is clear: none when the command has no callback
or when the suppress flag is set and the step was not the last one. -/
def deliveredCallback (ctx : MCP_HciSeq_Context) (ev : BtHciIfClientEvent) : List Action :=
  if ctx.command.callback ≠ none ∧
      (ctx.bCallCBOnlyForLastCmd = false ∨ ctx.uCommandCount ≤ ctx.uCurrentCommandIdx + 1) then
    [Action.callback ctx.command.callback { ev with pUserData := ctx.command.pUserData }
      (ctx.uCurrentCommandIdx + 1)]
  else []

/-- The command that is prepared for step `i` when the steps of `cmds` are
prepared in order, the command structure holding `c0` before step 0. -/
def preparedAt (prep : PrepSem) (cmds : Nat → McpHciSeqCmd) (c0 : McpHciSeqCommand) :
    Nat → McpHciSeqCommand
  | 0 => prep (cmds 0).fCommandPrepCB c0 (cmds 0).pUserData
  | i + 1 => prep (cmds (i + 1)).fCommandPrepCB (preparedAt prep cmds c0 i) (cmds (i + 1)).pUserData

/-- The two calls that prepare and send step `i` of `cmds`. -/
def specPrepSend (prep : PrepSem) (cmds : Nat → McpHciSeqCmd) (c0 : McpHciSeqCommand)
    (coreId : McpHalCoreId) (handle : Nat) (i : Nat) : List Action :=
  [Action.prep (cmds i).fCommandPrepCB (cmds i).pUserData,
   sendOf coreId handle (preparedAt prep cmds c0 i)]

/-- The delivery of the callback of step `i` of `cmds` for the completion event
`ev`: the callback of the command prepared for the step, called with the event
carrying that command's user data, the index being `i + 1` at the call. -/
def specCallback (prep : PrepSem) (cmds : Nat → McpHciSeqCmd) (c0 : McpHciSeqCommand)
    (i : Nat) (ev : BtHciIfClientEvent) : Action :=
  Action.callback (preparedAt prep cmds c0 i).callback
    { ev with pUserData := (preparedAt prep cmds c0 i).pUserData } (i + 1)

/-- An undisturbed run: the sequence `cmds` of `n` steps is run on `ctx`, every
send is pending, and the completion events `evs` are delivered in order with no
other operation in between. -/
def runToEnd (maxCmds : Nat) (prep : PrepSem) (ctx : MCP_HciSeq_Context) (n : Nat)
    (cmds : Nat → McpHciSeqCmd) (b : Bool) (evs : List BtHciIfClientEvent) :
    MCP_HciSeq_Context × List Action :=
  exec maxCmds prep noReentry ctx
    (Op.run n cmds b BT_HCI_IF_STATUS_PENDING ::
      evs.map (fun e => Op.complete e BT_HCI_IF_STATUS_PENDING))

/-- The context while step `k` of the `n`-step sequence `cmds` is in flight in
an undisturbed run. -/
structure InFlight (prep : PrepSem) (cmds : Nat → McpHciSeqCmd) (c0 : McpHciSeqCommand)
    (coreId : McpHalCoreId) (handle : Nat) (b : Bool) (n k : Nat)
    (ctx : MCP_HciSeq_Context) : Prop where
  flag : ctx.bCancelFlag = false
  count : ctx.uCommandCount = n
  idx : ctx.uCurrentCommandIdx = k
  core : ctx.coreId = coreId
  hdl : ctx.handle = handle
  suppress : ctx.bCallCBOnlyForLastCmd = b
  slots : ∀ i, i < n → ctx.commandsSequence i = cmds i
  cmd : ctx.command = preparedAt prep cmds c0 k

/-- The action with the status of the event of a callback replaced by `s`; other
actions carry no event and are left. -/
def Action.setStatus (s : BtHciIfStatus) : Action → Action
  | Action.callback cb ev idx => Action.callback cb { ev with status := s } idx
  | a => a

/-- The invariant on index and count: `uCurrentCommandIdx ≤ uCommandCount ≤
HCI_SEQ_MAX_CMDS_PER_SEQUENCE`. -/
def IdxCountInv (maxCmds : Nat) (ctx : MCP_HciSeq_Context) : Prop :=
  ctx.uCurrentCommandIdx ≤ ctx.uCommandCount ∧ ctx.uCommandCount ≤ maxCmds

/-- The number of sends of an operation that the transport has accepted and
will complete later: the sends in the calls `tr` of the operation when the
status `t` its send got is pending, none otherwise. -/
def acceptedSends (t : BtHciIfStatus) (tr : List Action) : Nat :=
  if t = BT_HCI_IF_STATUS_PENDING then (tr.filter Action.isSend).length else 0

/-- The end-to-end replacement: on `ctx` the sequence A of `cA` steps is run,
its send pending; before its first completion the sequence B of `m` steps is
submitted with the suppress flag clear; then the completion events `ev0` and
`evs` are delivered in order, every send being pending. -/
def replaceToEnd (maxCmds : Nat) (prep : PrepSem) (ctx : MCP_HciSeq_Context)
    (cA : Nat) (seqA : Nat → McpHciSeqCmd) (bA : Bool)
    (m : Nat) (seqB : Nat → McpHciSeqCmd) (tB : BtHciIfStatus)
    (ev0 : BtHciIfClientEvent) (evs : List BtHciIfClientEvent) :
    MCP_HciSeq_Context × List Action :=
  exec maxCmds prep noReentry ctx
    (Op.run cA seqA bA BT_HCI_IF_STATUS_PENDING :: Op.run m seqB false tB ::
      (ev0 :: evs).map (fun e => Op.complete e BT_HCI_IF_STATUS_PENDING))

/-- The status the transport returns to the send of the operation, should it
send (a cancel never sends). -/
def Op.sendStatus : Op → BtHciIfStatus
  | Op.run _ _ _ t => t
  | Op.cancel => BT_HCI_IF_STATUS_PENDING
  | Op.complete _ t => t

/-- The number of commands in flight (sent with a pending status and not yet
completed) after the operation `op` is done on `ctx` with `k` commands in
flight: the completion delivered takes one away, and the sends of the
operation that the transport accepted are added. -/
def inFlightAfter (maxCmds : Nat) (prep : PrepSem) (userCb : CbSem)
    (ctx : MCP_HciSeq_Context) (k : Nat) (op : Op) : Nat :=
  (match op with
    | Op.complete _ _ => k - 1
    | _ => k) + acceptedSends op.sendStatus (step maxCmds prep userCb ctx op).2

/-- The operations of an interleaving with `k` commands in flight: a run with a
count within the capacity, a cancel, and a completion only when a command is in
flight. -/
def Op.allowed (maxCmds : Nat) (k : Nat) : Op → Bool
  | Op.run n _ _ _ => decide (n ≤ maxCmds)
  | Op.cancel => true
  | Op.complete _ _ => decide (0 < k)

/-- The operations of an interleaving without cancel and without failure, with
`k` commands in flight: a run with a count from 1 to the capacity whose send is
pending, and a completion, delivered only when a command is in flight, with the
handler's send pending. -/
def Op.plain (maxCmds : Nat) (k : Nat) : Op → Bool
  | Op.run n _ _ t =>
    decide (1 ≤ n) && decide (n ≤ maxCmds) && decide (t = BT_HCI_IF_STATUS_PENDING)
  | Op.cancel => false
  | Op.complete _ t => decide (0 < k) && decide (t = BT_HCI_IF_STATUS_PENDING)

/-- The context and the number of commands in flight after the operations `ops`
are done in order on `ctx` with `k` commands in flight; `none` when one of them
is not one that `ok` lets through at its turn. -/
def play (ok : Nat → Op → Bool) (maxCmds : Nat) (prep : PrepSem) (userCb : CbSem) :
    MCP_HciSeq_Context → Nat → List Op → Option (MCP_HciSeq_Context × Nat)
  | ctx, k, [] => some (ctx, k)
  | ctx, k, op :: ops =>
    if ok k op then
      play ok maxCmds prep userCb (step maxCmds prep userCb ctx op).1
        (inFlightAfter maxCmds prep userCb ctx k op) ops
    else none

/-- The invariant of the interleavings without cancel and without failure: the
core is BT or FM, and either the sequencer is idle with nothing in flight, or a
sequence is running with one command in flight and the index below the count,
the index being 0 when the cancel flag is set. -/
def PlainInv (maxCmds : Nat) (ctx : MCP_HciSeq_Context) (k : Nat) : Prop :=
  (ctx.coreId = MCP_HAL_CORE_ID_BT ∨ ctx.coreId = MCP_HAL_CORE_ID_FM) ∧
  ((ctx.uCommandCount = 0 ∧ k = 0) ∨
   (0 < ctx.uCommandCount ∧ ctx.uCommandCount ≤ maxCmds ∧ k = 1 ∧
    ctx.uCurrentCommandIdx < ctx.uCommandCount ∧
    (ctx.bCancelFlag = true → ctx.uCurrentCommandIdx = 0)))

/-! ## Concrete inputs -/

/-- A preparation function table: function `f` called with user data `d` makes
the command with opcode `f`, parameters `d` and callback `100 + f`, function `0`
leaving the callback `NULL`. -/
def prepW : PrepSem := fun f _ d =>
  { eHciOpcode := f, pHciCmdParms := d, uhciCmdParmsLen := 1, uCompletionEvent := 14,
    callback := if f = 0 then none else some (100 + f), pUserData := d }

/-- A command list: step `i` has preparation function `i + 1` and user data
`10 * i`. -/
def seqW : Nat → McpHciSeqCmd := fun i => { fCommandPrepCB := i + 1, pUserData := 10 * i }

/-- A second command list: step `i` has preparation function `i + 51` and user
data `500 + i`. -/
def seqV : Nat → McpHciSeqCmd := fun i => { fCommandPrepCB := i + 51, pUserData := 500 + i }

/-- A context as memory holds it before `MCP_HciSeq_CreateSequence`. -/
def rawW : MCP_HciSeq_Context :=
  { handle := 0, coreId := MCP_HAL_CORE_ID_OTHER 9,
    commandsSequence := fun _ => { fCommandPrepCB := 0, pUserData := 0 },
    uCommandCount := 5, uCurrentCommandIdx := 3, bCallCBOnlyForLastCmd := false,
    bCancelFlag := true,
    command := { eHciOpcode := 0, pHciCmdParms := 0, uhciCmdParmsLen := 0,
                 uCompletionEvent := 0, callback := none, pUserData := 0 } }

/-- The context `MCP_HciSeq_CreateSequence` makes for the BT core, the
registration storing handle 7. -/
def ctxW : MCP_HciSeq_Context :=
  (MCP_HciSeq_CreateSequence (BT_HCI_IF_STATUS_SUCCESS, 7) rawW 1 MCP_HAL_CORE_ID_BT).1

/-- A context in which a two-step sequence is running, its first command in
flight. -/
def runningW : MCP_HciSeq_Context :=
  (MCP_HciSeq_RunSequence 4 prepW BT_HCI_IF_STATUS_PENDING ctxW 2 seqW false).2.1

/-- A completion event reporting success. -/
def evW : BtHciIfClientEvent :=
  { status := BT_HCI_IF_STATUS_SUCCESS, payload := 77, pUserData := 4096 }

/-- The context reached from the one `MCP_HciSeq_CreateSequence` makes by a run
of a one-step sequence whose send fails at once, followed by
`MCP_HciSeq_CancelSequence`: nothing is in flight and `uCommandCount` is 0, but
the cancel flag is set. -/
def staleW : MCP_HciSeq_Context :=
  (exec 4 prepW noReentry ctxW [Op.run 1 seqW false BT_HCI_IF_STATUS_FAILED, Op.cancel]).1

/-- The completion event number `n`, reporting success. -/
def evN (n : Nat) : BtHciIfClientEvent :=
  { status := BT_HCI_IF_STATUS_SUCCESS, payload := n, pUserData := 4096 }

/-- A command list whose step 1 has the preparation function 0, which leaves
the callback `NULL`; step 0 has the preparation function 1. -/
def seqN : Nat → McpHciSeqCmd := fun i => { fCommandPrepCB := 1 - i, pUserData := 30 + i }

/-- A context in which the two-step `seqN` is running, its first command in
flight: made by `MCP_HciSeq_CreateSequence` and a run whose send is pending. -/
def runningN : MCP_HciSeq_Context :=
  (MCP_HciSeq_RunSequence 4 prepW BT_HCI_IF_STATUS_PENDING ctxW 2 seqN false).2.1

/-- User callbacks of which the one at address 101, the callback of step 0 of
`seqW`, runs the two-step sequence `seqV` on the sequencer (capacity 4, suppress
flag clear, the transport returning pending); the others do not re-enter. -/
def cbRunsV : CbSem := fun f _ ctx =>
  if f = 101 then
    (MCP_HciSeq_RunSequence 4 prepW BT_HCI_IF_STATUS_PENDING ctx 2 seqV false).2
  else (ctx, [])

/-! ## Lemmas on the operations -/

/-- With callbacks that do not re-enter, calling the command's callback only
records the call. -/
theorem callCommandCallback_noReentry (ctx : MCP_HciSeq_Context) (ev : BtHciIfClientEvent) :
    callCommandCallback noReentry ctx ev =
      (ctx, [Action.callback ctx.command.callback ev ctx.uCurrentCommandIdx]) := by
  unfold callCommandCallback
  cases h : ctx.command.callback <;> simp [noReentry]

/-- Operations done one after the other: the lists of operations append. -/
theorem exec_append (maxCmds : Nat) (prep : PrepSem) (userCb : CbSem)
    (ctx : MCP_HciSeq_Context) (l1 l2 : List Op) :
    exec maxCmds prep userCb ctx (l1 ++ l2) =
      ((exec maxCmds prep userCb (exec maxCmds prep userCb ctx l1).1 l2).1,
       (exec maxCmds prep userCb ctx l1).2 ++
         (exec maxCmds prep userCb (exec maxCmds prep userCb ctx l1).1 l2).2) := by
  induction l1 generalizing ctx with
  | nil => simp [exec]
  | cons op ops ih => simp [exec, ih, List.append_assoc]

/-- A send calls no callback. -/
theorem sendCurrent_no_callback (tSend : BtHciIfStatus) (ctx : MCP_HciSeq_Context) :
    (sendCurrent tSend ctx).2.filter Action.isCallback = [] := by
  unfold sendCurrent
  split
  · rfl
  · split <;> rfl

/-- An accepted submission on a context that is running or has its cancel flag
set: the flag is set afterwards, the count and the first slots are the
submitted ones, the index is 0, core and handle are kept. -/
theorem run_keeps_pending_cancel (maxCmds : Nat) (prep : PrepSem) (tSend : BtHciIfStatus)
    (ctx : MCP_HciSeq_Context) (count : Nat) (cmds : Nat → McpHciSeqCmd) (b : Bool)
    (hcount : count ≤ maxCmds) (h : ctx.bCancelFlag = true ∨ 0 < ctx.uCommandCount) :
    (MCP_HciSeq_RunSequence maxCmds prep tSend ctx count cmds b).2.1.bCancelFlag = true ∧
    (MCP_HciSeq_RunSequence maxCmds prep tSend ctx count cmds b).2.1.uCommandCount = count ∧
    (MCP_HciSeq_RunSequence maxCmds prep tSend ctx count cmds b).2.1.uCurrentCommandIdx = 0 ∧
    (MCP_HciSeq_RunSequence maxCmds prep tSend ctx count cmds b).2.1.coreId = ctx.coreId ∧
    (MCP_HciSeq_RunSequence maxCmds prep tSend ctx count cmds b).2.1.handle = ctx.handle ∧
    (MCP_HciSeq_RunSequence maxCmds prep tSend ctx count cmds b).2.1.bCallCBOnlyForLastCmd
      = b ∧
    (∀ i, i < count →
      (MCP_HciSeq_RunSequence maxCmds prep tSend ctx count cmds b).2.1.commandsSequence i
        = cmds i) ∧
    ((MCP_HciSeq_RunSequence maxCmds prep tSend ctx count cmds b).2.2.filter
      Action.isCallback) = [] := by
  have hle : ¬ maxCmds < count := Nat.not_lt.mpr hcount
  by_cases hrun : 0 < ctx.uCommandCount
  · simp only [MCP_HciSeq_RunSequence, hle, hrun, if_false, if_true, gt_iff_lt,
      MCP_HAL_MEMORY_MemCopy, true_and, List.filter_nil]
    refine ⟨?_, trivial⟩
    intro i hi
    simp [hi]
  · have hflag : ctx.bCancelFlag = true := h.resolve_right hrun
    simp only [MCP_HciSeq_RunSequence, hle, hrun, if_false, gt_iff_lt,
      MCP_HAL_MEMORY_MemCopy, prepareCurrent, hflag, true_and, List.filter_append,
      sendCurrent_no_callback]
    refine ⟨?_, ?_⟩
    · intro i hi
      simp [hi]
    · simp [Action.isCallback]

/-- A list of accepted submissions on a context that is running or has its
cancel flag set leaves a context that is running or has its cancel flag set,
with the same core and handle, and calls no callback. -/
theorem runs_keep_pending_cancel (maxCmds : Nat) (prep : PrepSem) (userCb : CbSem)
    (mids : List (Nat × (Nat → McpHciSeqCmd) × Bool × BtHciIfStatus))
    (hmids : ∀ m ∈ mids, m.1 ≤ maxCmds) (ctx : MCP_HciSeq_Context)
    (h : ctx.bCancelFlag = true ∨ 0 < ctx.uCommandCount) :
    ((exec maxCmds prep userCb ctx (mids.map runOp)).1.bCancelFlag = true ∨
      0 < (exec maxCmds prep userCb ctx (mids.map runOp)).1.uCommandCount) ∧
    (exec maxCmds prep userCb ctx (mids.map runOp)).1.coreId = ctx.coreId ∧
    (exec maxCmds prep userCb ctx (mids.map runOp)).1.handle = ctx.handle ∧
    ((exec maxCmds prep userCb ctx (mids.map runOp)).2.filter Action.isCallback) = [] := by
  induction mids generalizing ctx with
  | nil => simp [exec, h]
  | cons m ms ih =>
    have hm : m.1 ≤ maxCmds := hmids m (List.mem_cons_self _ _)
    have hms : ∀ x ∈ ms, x.1 ≤ maxCmds := fun x hx => hmids x (List.mem_cons_of_mem _ hx)
    have hr := run_keeps_pending_cancel maxCmds prep m.2.2.2 ctx m.1 m.2.1 m.2.2.1 hm h
    have hi := ih hms (MCP_HciSeq_RunSequence maxCmds prep m.2.2.2 ctx m.1 m.2.1 m.2.2.1).2.1
      (Or.inl hr.1)
    simp only [List.map_cons, exec, runOp, step, List.filter_append]
    simp only [runOp] at hi
    refine ⟨hi.1, ?_, ?_, ?_⟩
    · rw [hi.2.1, hr.2.2.2.1]
    · rw [hi.2.2.1, hr.2.2.2.2.1]
    · rw [hi.2.2.2, hr.2.2.2.2.2.2.2]
      rfl

/-- The completion handler on a context whose cancel flag is set, with index 0
and a non-empty sequence, on a BT or FM core and with callbacks that do not
re-enter: no callback of the completed command; the flag is cleared, slot 0 is
prepared and sent, and only if that send is not pending the callback of the
newly prepared command is called. -/
theorem handler_after_replace (prep : PrepSem) (tSend : BtHciIfStatus)
    (ctx : MCP_HciSeq_Context) (ev : BtHciIfClientEvent)
    (hflag : ctx.bCancelFlag = true) (hidx : ctx.uCurrentCommandIdx = 0)
    (hcnt : 0 < ctx.uCommandCount)
    (hcore : ctx.coreId = MCP_HAL_CORE_ID_BT ∨ ctx.coreId = MCP_HAL_CORE_ID_FM) :
    _MCP_HciSeq_callback prep noReentry tSend ctx ev =
      ({ ctx with
          bCancelFlag := false
          command := prep (ctx.commandsSequence 0).fCommandPrepCB ctx.command
            (ctx.commandsSequence 0).pUserData },
       Action.prep (ctx.commandsSequence 0).fCommandPrepCB (ctx.commandsSequence 0).pUserData ::
       sendOf ctx.coreId ctx.handle
         (prep (ctx.commandsSequence 0).fCommandPrepCB ctx.command
           (ctx.commandsSequence 0).pUserData) ::
       (if tSend = BT_HCI_IF_STATUS_PENDING then []
        else [Action.callback
          (prep (ctx.commandsSequence 0).fCommandPrepCB ctx.command
            (ctx.commandsSequence 0).pUserData).callback
          { ev with pUserData :=
              (prep (ctx.commandsSequence 0).fCommandPrepCB ctx.command
                (ctx.commandsSequence 0).pUserData).pUserData } 0])) := by
  rcases hcore with h | h <;> by_cases ht : tSend = BT_HCI_IF_STATUS_PENDING <;>
    simp [_MCP_HciSeq_callback, completionAck, completionNext, hflag, hidx, hcnt,
      prepareCurrent, sendCurrent, sendOf, h, ht, callCommandCallback_noReentry]

/-- An accepted submission on an idle context stores the count, keeps core
and handle, and calls no callback. -/
theorem run_idle_fields (maxCmds : Nat) (prep : PrepSem) (tSend : BtHciIfStatus)
    (ctx : MCP_HciSeq_Context) (count : Nat) (cmds : Nat → McpHciSeqCmd) (b : Bool)
    (hcount : count ≤ maxCmds) (hidle : ctx.uCommandCount = 0) :
    (MCP_HciSeq_RunSequence maxCmds prep tSend ctx count cmds b).2.1.uCommandCount = count ∧
    (MCP_HciSeq_RunSequence maxCmds prep tSend ctx count cmds b).2.1.coreId = ctx.coreId ∧
    (MCP_HciSeq_RunSequence maxCmds prep tSend ctx count cmds b).2.1.handle = ctx.handle ∧
    ((MCP_HciSeq_RunSequence maxCmds prep tSend ctx count cmds b).2.2.filter
      Action.isCallback) = [] := by
  have hle : ¬ maxCmds < count := Nat.not_lt.mpr hcount
  simp [MCP_HciSeq_RunSequence, hle, hidle, prepareCurrent, List.filter_append,
    sendCurrent_no_callback, Action.isCallback]

/-- One completion on a context whose cancel flag is clear, on a BT or FM core,
with callbacks that do not re-enter and a pending send: the index advances, the
callback of the completed command is delivered as `deliveredCallback` says, and
either the next slot is prepared and sent or the sequencer becomes idle. -/
theorem handler_step (prep : PrepSem) (ctx : MCP_HciSeq_Context) (ev : BtHciIfClientEvent)
    (hflag : ctx.bCancelFlag = false) (hk : ctx.uCurrentCommandIdx + 1 < McpU32_MOD)
    (hcore : ctx.coreId = MCP_HAL_CORE_ID_BT ∨ ctx.coreId = MCP_HAL_CORE_ID_FM) :
    _MCP_HciSeq_callback prep noReentry BT_HCI_IF_STATUS_PENDING ctx ev =
      if ctx.uCurrentCommandIdx + 1 < ctx.uCommandCount then
        ({ ctx with
            uCurrentCommandIdx := ctx.uCurrentCommandIdx + 1
            command := prep (ctx.commandsSequence (ctx.uCurrentCommandIdx + 1)).fCommandPrepCB
              ctx.command (ctx.commandsSequence (ctx.uCurrentCommandIdx + 1)).pUserData },
         deliveredCallback ctx ev ++
           [Action.prep (ctx.commandsSequence (ctx.uCurrentCommandIdx + 1)).fCommandPrepCB
              (ctx.commandsSequence (ctx.uCurrentCommandIdx + 1)).pUserData,
            sendOf ctx.coreId ctx.handle
              (prep (ctx.commandsSequence (ctx.uCurrentCommandIdx + 1)).fCommandPrepCB
                ctx.command (ctx.commandsSequence (ctx.uCurrentCommandIdx + 1)).pUserData)])
      else
        ({ ctx with uCommandCount := 0, uCurrentCommandIdx := 0 }, deliveredCallback ctx ev) := by
  have hmod : (ctx.uCurrentCommandIdx + 1) % McpU32_MOD = ctx.uCurrentCommandIdx + 1 :=
    Nat.mod_eq_of_lt hk
  by_cases hnext : ctx.uCurrentCommandIdx + 1 < ctx.uCommandCount
  · have hnl : ¬ ctx.uCommandCount ≤ ctx.uCurrentCommandIdx + 1 := Nat.not_le.mpr hnext
    rcases hcore with h | h <;> cases hcb : ctx.command.callback <;>
      cases hb : ctx.bCallCBOnlyForLastCmd <;>
      simp [_MCP_HciSeq_callback, completionAck, completionNext, hflag, hmod, hnext, hnl,
        callCommandCallback_noReentry, prepareCurrent, sendCurrent, sendOf, deliveredCallback,
        h, hcb, hb]
  · have hnl : ctx.uCommandCount ≤ ctx.uCurrentCommandIdx + 1 := Nat.not_lt.mp hnext
    rcases hcore with h | h <;> cases hcb : ctx.command.callback <;>
      cases hb : ctx.bCallCBOnlyForLastCmd <;>
      simp [_MCP_HciSeq_callback, completionAck, completionNext, hflag, hmod, hnext, hnl,
        callCommandCallback_noReentry, deliveredCallback, h, hcb, hb]

/-- Run on an idle context with a clear cancel flag puts step 0 in flight. -/
theorem run_inFlight (maxCmds : Nat) (prep : PrepSem) (ctx : MCP_HciSeq_Context) (n : Nat)
    (cmds : Nat → McpHciSeqCmd) (b : Bool) (hn1 : 1 ≤ n) (hn : n ≤ maxCmds)
    (hidle : ctx.uCommandCount = 0) (hflag : ctx.bCancelFlag = false)
    (hcore : ctx.coreId = MCP_HAL_CORE_ID_BT ∨ ctx.coreId = MCP_HAL_CORE_ID_FM) :
    InFlight prep cmds ctx.command ctx.coreId ctx.handle b n 0
      (MCP_HciSeq_RunSequence maxCmds prep BT_HCI_IF_STATUS_PENDING ctx n cmds b).2.1 ∧
    (MCP_HciSeq_RunSequence maxCmds prep BT_HCI_IF_STATUS_PENDING ctx n cmds b).2.2 =
      specPrepSend prep cmds ctx.command ctx.coreId ctx.handle 0 := by
  have hle : ¬ maxCmds < n := Nat.not_lt.mpr hn
  have h0 : 0 < n := hn1
  refine ⟨⟨?_, ?_, ?_, ?_, ?_, ?_, ?_, ?_⟩, ?_⟩
  · simp [MCP_HciSeq_RunSequence, hle, hidle, prepareCurrent, hflag]
  · simp [MCP_HciSeq_RunSequence, hle, hidle, prepareCurrent]
  · simp [MCP_HciSeq_RunSequence, hle, hidle, prepareCurrent]
  · simp [MCP_HciSeq_RunSequence, hle, hidle, prepareCurrent]
  · simp [MCP_HciSeq_RunSequence, hle, hidle, prepareCurrent]
  · simp [MCP_HciSeq_RunSequence, hle, hidle, prepareCurrent]
  · intro i hi
    simp [MCP_HciSeq_RunSequence, hle, hidle, prepareCurrent, MCP_HAL_MEMORY_MemCopy, hi]
  · simp [MCP_HciSeq_RunSequence, hle, hidle, prepareCurrent, MCP_HAL_MEMORY_MemCopy, h0,
      preparedAt]
  · rcases hcore with h | h <;>
      simp [MCP_HciSeq_RunSequence, hle, hidle, prepareCurrent, sendCurrent, sendOf, h,
        MCP_HAL_MEMORY_MemCopy, h0, specPrepSend, preparedAt]

/-- The completion of step `k` when a further step follows: the callback of
step `k` is delivered unless suppressed or `NULL`, step `k + 1` is prepared and
sent and is then in flight. -/
theorem completion_inFlight (prep : PrepSem) (cmds : Nat → McpHciSeqCmd)
    (c0 : McpHciSeqCommand) (coreId : McpHalCoreId) (handle : Nat) (b : Bool) (n k : Nat)
    (ctx : MCP_HciSeq_Context) (ev : BtHciIfClientEvent)
    (hin : InFlight prep cmds c0 coreId handle b n k ctx)
    (hcore : coreId = MCP_HAL_CORE_ID_BT ∨ coreId = MCP_HAL_CORE_ID_FM)
    (hk : k + 1 < n) (hn : n < McpU32_MOD) :
    InFlight prep cmds c0 coreId handle b n (k + 1)
      (_MCP_HciSeq_callback prep noReentry BT_HCI_IF_STATUS_PENDING ctx ev).1 ∧
    (_MCP_HciSeq_callback prep noReentry BT_HCI_IF_STATUS_PENDING ctx ev).2 =
      (if (preparedAt prep cmds c0 k).callback ≠ none ∧ b = false
        then [specCallback prep cmds c0 k ev] else []) ++
      specPrepSend prep cmds c0 coreId handle (k + 1) := by
  obtain ⟨hflag, hcount, hidx, hc, hh, hs, hslots, hcmd⟩ := hin
  have hstep := handler_step prep ctx ev hflag
    (by rw [hidx]; exact Nat.lt_trans hk hn) (by rw [hc]; exact hcore)
  have hnext : ctx.uCurrentCommandIdx + 1 < ctx.uCommandCount := by
    rw [hidx, hcount]; exact hk
  rw [if_pos hnext] at hstep
  rw [hstep]
  refine ⟨⟨hflag, hcount, ?_, hc, hh, hs, hslots, ?_⟩, ?_⟩
  · simp [hidx]
  · simp [hidx, hslots (k + 1) hk, hcmd, preparedAt]
  · have hnl : ¬ n ≤ k + 1 := Nat.not_le.mpr hk
    simp [deliveredCallback, specCallback, specPrepSend, hidx, hcount, hs, hcmd, hc, hh,
      hslots (k + 1) hk, preparedAt, hnl]

/-- The completion of the last step: its callback is delivered unless `NULL`,
nothing is prepared or sent, and the sequencer is left idle. -/
theorem completion_last (prep : PrepSem) (cmds : Nat → McpHciSeqCmd)
    (c0 : McpHciSeqCommand) (coreId : McpHalCoreId) (handle : Nat) (b : Bool) (n k : Nat)
    (ctx : MCP_HciSeq_Context) (ev : BtHciIfClientEvent)
    (hin : InFlight prep cmds c0 coreId handle b n k ctx)
    (hcore : coreId = MCP_HAL_CORE_ID_BT ∨ coreId = MCP_HAL_CORE_ID_FM)
    (hk : k + 1 = n) (hn : n < McpU32_MOD) :
    (_MCP_HciSeq_callback prep noReentry BT_HCI_IF_STATUS_PENDING ctx ev).1.uCommandCount = 0 ∧
    (_MCP_HciSeq_callback prep noReentry BT_HCI_IF_STATUS_PENDING ctx ev).1.uCurrentCommandIdx
      = 0 ∧
    (_MCP_HciSeq_callback prep noReentry BT_HCI_IF_STATUS_PENDING ctx ev).1.bCancelFlag
      = false ∧
    (_MCP_HciSeq_callback prep noReentry BT_HCI_IF_STATUS_PENDING ctx ev).2 =
      (if (preparedAt prep cmds c0 k).callback ≠ none
        then [specCallback prep cmds c0 k ev] else []) := by
  obtain ⟨hflag, hcount, hidx, hc, hh, hs, hslots, hcmd⟩ := hin
  have hstep := handler_step prep ctx ev hflag
    (by rw [hidx, hk]; exact hn) (by rw [hc]; exact hcore)
  have hnext : ¬ ctx.uCurrentCommandIdx + 1 < ctx.uCommandCount := by
    rw [hidx, hcount, hk]; exact Nat.lt_irrefl n
  rw [if_neg hnext] at hstep
  rw [hstep]
  refine ⟨rfl, rfl, hflag, ?_⟩
  simp [deliveredCallback, specCallback, hidx, hcount, hcmd, hk]

/-- With the suppress flag set, the completions of steps `k` to the last: every
later step is prepared and sent once, in order, only the last step's callback is
delivered, with the last event, and the sequencer ends idle. -/
theorem suppressed_completions (maxCmds : Nat) (prep : PrepSem) (cmds : Nat → McpHciSeqCmd)
    (c0 : McpHciSeqCommand) (coreId : McpHalCoreId) (handle : Nat) (n : Nat)
    (hcore : coreId = MCP_HAL_CORE_ID_BT ∨ coreId = MCP_HAL_CORE_ID_FM)
    (hn : n < McpU32_MOD) (evLast : BtHciIfClientEvent) (evs : List BtHciIfClientEvent) :
    ∀ (k : Nat) (ctx : MCP_HciSeq_Context),
      InFlight prep cmds c0 coreId handle true n k ctx → evs.length + k + 1 = n →
      (exec maxCmds prep noReentry ctx
        ((evs ++ [evLast]).map (fun e => Op.complete e BT_HCI_IF_STATUS_PENDING))).1.uCommandCount
        = 0 ∧
      (exec maxCmds prep noReentry ctx
        ((evs ++ [evLast]).map
          (fun e => Op.complete e BT_HCI_IF_STATUS_PENDING))).1.uCurrentCommandIdx = 0 ∧
      (exec maxCmds prep noReentry ctx
        ((evs ++ [evLast]).map (fun e => Op.complete e BT_HCI_IF_STATUS_PENDING))).1.bCancelFlag
        = false ∧
      (exec maxCmds prep noReentry ctx
        ((evs ++ [evLast]).map (fun e => Op.complete e BT_HCI_IF_STATUS_PENDING))).2 =
        ((List.range' (k + 1) evs.length).map
          (specPrepSend prep cmds c0 coreId handle)).flatten ++
        (if (preparedAt prep cmds c0 (n - 1)).callback ≠ none
          then [specCallback prep cmds c0 (n - 1) evLast] else []) := by
  induction evs with
  | nil =>
    intro k ctx hin hlen
    have hk : k + 1 = n := by simpa using hlen
    have hl := completion_last prep cmds c0 coreId handle true n k ctx evLast hin hcore hk hn
    have hk1 : n - 1 = k := by omega
    simp only [List.nil_append, List.map_cons, List.map_nil, exec, step, List.append_nil,
      List.length_nil, List.range'_zero, List.flatten_nil, List.nil_append, hk1]
    exact hl
  | cons e es ih =>
    intro k ctx hin hlen
    have hlen2 : es.length + (k + 1) + 1 = n := by
      simp only [List.length_cons] at hlen
      omega
    have hk : k + 1 < n := by omega
    have hc := completion_inFlight prep cmds c0 coreId handle true n k ctx e hin hcore hk hn
    have hi := ih (k + 1)
      (_MCP_HciSeq_callback prep noReentry BT_HCI_IF_STATUS_PENDING ctx e).1 hc.1 hlen2
    have hops : ((e :: es) ++ [evLast]).map (fun e => Op.complete e BT_HCI_IF_STATUS_PENDING) =
        Op.complete e BT_HCI_IF_STATUS_PENDING ::
          (es ++ [evLast]).map (fun e => Op.complete e BT_HCI_IF_STATUS_PENDING) := rfl
    rw [hops]
    simp only [exec, step, List.length_cons, List.range'_succ, List.map_cons,
      List.flatten_cons]
    refine ⟨hi.1, hi.2.1, hi.2.2.1, ?_⟩
    rw [hi.2.2.2, hc.2]
    simp

/-- With the suppress flag clear and no `NULL` callback, the completions of
steps `k` to the last: together with the preparation and send of step `k`, the
calls are, step by step, preparation, send and callback, and the sequencer ends
idle. -/
theorem normal_completions (maxCmds : Nat) (prep : PrepSem) (cmds : Nat → McpHciSeqCmd)
    (c0 : McpHciSeqCommand) (coreId : McpHalCoreId) (handle : Nat) (n : Nat)
    (hcore : coreId = MCP_HAL_CORE_ID_BT ∨ coreId = MCP_HAL_CORE_ID_FM)
    (hn : n < McpU32_MOD)
    (hcb : ∀ i, i < n → (preparedAt prep cmds c0 i).callback ≠ none)
    (evs : List BtHciIfClientEvent) :
    ∀ (k : Nat) (ctx : MCP_HciSeq_Context),
      InFlight prep cmds c0 coreId handle false n k ctx → evs.length + k = n → k < n →
      (exec maxCmds prep noReentry ctx
        (evs.map (fun e => Op.complete e BT_HCI_IF_STATUS_PENDING))).1.uCommandCount = 0 ∧
      (exec maxCmds prep noReentry ctx
        (evs.map (fun e => Op.complete e BT_HCI_IF_STATUS_PENDING))).1.uCurrentCommandIdx = 0 ∧
      (exec maxCmds prep noReentry ctx
        (evs.map (fun e => Op.complete e BT_HCI_IF_STATUS_PENDING))).1.bCancelFlag = false ∧
      specPrepSend prep cmds c0 coreId handle k ++
        (exec maxCmds prep noReentry ctx
          (evs.map (fun e => Op.complete e BT_HCI_IF_STATUS_PENDING))).2 =
        (List.zipWith
          (fun i ev => specPrepSend prep cmds c0 coreId handle i ++
            [specCallback prep cmds c0 i ev])
          (List.range' k evs.length) evs).flatten := by
  induction evs with
  | nil =>
    intro k ctx _ hlen hk
    simp only [List.length_nil, Nat.zero_add] at hlen
    omega
  | cons e es ih =>
    intro k ctx hin hlen hk
    simp only [List.length_cons] at hlen
    by_cases hnext : k + 1 < n
    · have hc := completion_inFlight prep cmds c0 coreId handle false n k ctx e hin hcore
        hnext hn
      have hi := ih (k + 1)
        (_MCP_HciSeq_callback prep noReentry BT_HCI_IF_STATUS_PENDING ctx e).1 hc.1
        (by omega) hnext
      simp only [List.map_cons, exec, step, List.length_cons, List.range'_succ,
        List.zipWith_cons_cons, List.flatten_cons]
      refine ⟨hi.1, hi.2.1, hi.2.2.1, ?_⟩
      rw [← hi.2.2.2, hc.2]
      simp [hcb k hk]
    · have hkn : k + 1 = n := by omega
      have hes : es = [] := List.eq_nil_of_length_eq_zero (by omega)
      have hl := completion_last prep cmds c0 coreId handle false n k ctx e hin hcore hkn hn
      subst hes
      simp only [List.map_cons, List.map_nil, exec, step, List.append_nil, List.length_cons,
        List.length_nil, List.range'_succ, List.range'_zero, List.zipWith_cons_cons,
        List.zipWith_nil_right, List.flatten_cons, List.flatten_nil]
      refine ⟨hl.1, hl.2.1, hl.2.2.1, ?_⟩
      rw [hl.2.2.2]
      simp [hcb k hk]

/-- The calls of one step, preparation, send and callback, hold one call of
each kind. -/
theorem step_counts (prep : PrepSem) (cmds : Nat → McpHciSeqCmd) (c0 : McpHciSeqCommand)
    (coreId : McpHalCoreId) (handle : Nat) (i : Nat) (ev : BtHciIfClientEvent) :
    ((specPrepSend prep cmds c0 coreId handle i ++
      [specCallback prep cmds c0 i ev]).filter Action.isPrep).length = 1 ∧
    ((specPrepSend prep cmds c0 coreId handle i ++
      [specCallback prep cmds c0 i ev]).filter Action.isSend).length = 1 ∧
    ((specPrepSend prep cmds c0 coreId handle i ++
      [specCallback prep cmds c0 i ev]).filter Action.isCallback).length = 1 := by
  unfold specPrepSend specCallback sendOf
  split <;> exact ⟨rfl, rfl, rfl⟩

/-- In a trace made of a preparation, a send and a callback per step there are
as many preparations, sends and callbacks as steps. -/
theorem zip_counts (prep : PrepSem) (cmds : Nat → McpHciSeqCmd) (c0 : McpHciSeqCommand)
    (coreId : McpHalCoreId) (handle : Nat) :
    ∀ (is : List Nat) (evs : List BtHciIfClientEvent), is.length = evs.length →
      (((List.zipWith
          (fun i ev => specPrepSend prep cmds c0 coreId handle i ++
            [specCallback prep cmds c0 i ev]) is evs).flatten).filter Action.isPrep).length
        = evs.length ∧
      (((List.zipWith
          (fun i ev => specPrepSend prep cmds c0 coreId handle i ++
            [specCallback prep cmds c0 i ev]) is evs).flatten).filter Action.isSend).length
        = evs.length ∧
      (((List.zipWith
          (fun i ev => specPrepSend prep cmds c0 coreId handle i ++
            [specCallback prep cmds c0 i ev]) is evs).flatten).filter Action.isCallback).length
        = evs.length := by
  intro is
  induction is with
  | nil =>
    intro evs h
    have : evs = [] := List.eq_nil_of_length_eq_zero (by simpa using h.symm)
    subst this
    simp
  | cons i is ih =>
    intro evs h
    cases evs with
    | nil => simp at h
    | cons e es =>
      have hi := ih es (by simpa using h)
      have hst := step_counts prep cmds c0 coreId handle i e
      simp only [List.zipWith_cons_cons, List.flatten_cons, List.length_cons]
      refine ⟨?_, ?_, ?_⟩
      · rw [List.filter_append, List.length_append, hst.1, hi.1]
        omega
      · rw [List.filter_append, List.length_append, hst.2.1, hi.2.1]
        omega
      · rw [List.filter_append, List.length_append, hst.2.2, hi.2.2]
        omega

/-- The second half of the handler when a step remains and its send is not
pending (core BT or FM, callbacks that do not re-enter): the step is prepared
and sent and the callback of the command just prepared is called, even when it
is `NULL`, with the event the handler received, in which only `pUserData` is
replaced. -/
theorem completionNext_failed_send (prep : PrepSem) (tSend : BtHciIfStatus)
    (ctx : MCP_HciSeq_Context) (ev : BtHciIfClientEvent)
    (hnext : ctx.uCurrentCommandIdx < ctx.uCommandCount)
    (ht : tSend ≠ BT_HCI_IF_STATUS_PENDING)
    (hcore : ctx.coreId = MCP_HAL_CORE_ID_BT ∨ ctx.coreId = MCP_HAL_CORE_ID_FM) :
    completionNext prep noReentry tSend ctx ev =
      ({ ctx with
          command := prep (ctx.commandsSequence ctx.uCurrentCommandIdx).fCommandPrepCB
            ctx.command (ctx.commandsSequence ctx.uCurrentCommandIdx).pUserData },
       [Action.prep (ctx.commandsSequence ctx.uCurrentCommandIdx).fCommandPrepCB
          (ctx.commandsSequence ctx.uCurrentCommandIdx).pUserData,
        sendOf ctx.coreId ctx.handle
          (prep (ctx.commandsSequence ctx.uCurrentCommandIdx).fCommandPrepCB ctx.command
            (ctx.commandsSequence ctx.uCurrentCommandIdx).pUserData),
        Action.callback
          (prep (ctx.commandsSequence ctx.uCurrentCommandIdx).fCommandPrepCB ctx.command
            (ctx.commandsSequence ctx.uCurrentCommandIdx).pUserData).callback
          { status := ev.status, payload := ev.payload,
            pUserData :=
              (prep (ctx.commandsSequence ctx.uCurrentCommandIdx).fCommandPrepCB ctx.command
                (ctx.commandsSequence ctx.uCurrentCommandIdx).pUserData).pUserData }
          ctx.uCurrentCommandIdx]) := by
  rcases hcore with h | h <;>
    simp [completionNext, hnext, ht, prepareCurrent, sendCurrent, sendOf, h,
      callCommandCallback_noReentry]

/-! ## Run, Cancel and the rejected submission -/

/-- C1. Run on an idle sequencer (`uCommandCount = 0`, core BT or FM) with a
count within the capacity: the count is stored, the index is 0, the status
returned is the one the transport send reported, and the calls made are exactly
one preparation (the function and user data of slot 0 after the copy:
`pCommands[0]` when the count is at least 1) followed by exactly one send of the
command so prepared; no callback is called. -/
theorem C1_run_idle (maxCmds : Nat) (prep : PrepSem) (tSend : BtHciIfStatus)
    (ctx : MCP_HciSeq_Context) (count : Nat) (cmds : Nat → McpHciSeqCmd) (b : Bool)
    (hcount : count ≤ maxCmds) (hidle : ctx.uCommandCount = 0)
    (hcore : ctx.coreId = MCP_HAL_CORE_ID_BT ∨ ctx.coreId = MCP_HAL_CORE_ID_FM) :
    (MCP_HciSeq_RunSequence maxCmds prep tSend ctx count cmds b).1 = tSend ∧
    (MCP_HciSeq_RunSequence maxCmds prep tSend ctx count cmds b).2.1.uCommandCount = count ∧
    (MCP_HciSeq_RunSequence maxCmds prep tSend ctx count cmds b).2.1.uCurrentCommandIdx = 0 ∧
    (MCP_HciSeq_RunSequence maxCmds prep tSend ctx count cmds b).2.1.command =
      prep (if 0 < count then cmds 0 else ctx.commandsSequence 0).fCommandPrepCB ctx.command
        (if 0 < count then cmds 0 else ctx.commandsSequence 0).pUserData ∧
    (MCP_HciSeq_RunSequence maxCmds prep tSend ctx count cmds b).2.2 =
      [Action.prep (if 0 < count then cmds 0 else ctx.commandsSequence 0).fCommandPrepCB
         (if 0 < count then cmds 0 else ctx.commandsSequence 0).pUserData,
       sendOf ctx.coreId ctx.handle
         (prep (if 0 < count then cmds 0 else ctx.commandsSequence 0).fCommandPrepCB
           ctx.command (if 0 < count then cmds 0 else ctx.commandsSequence 0).pUserData)] ∧
    ((MCP_HciSeq_RunSequence maxCmds prep tSend ctx count cmds b).2.2.filter
      Action.isPrep).length = 1 ∧
    ((MCP_HciSeq_RunSequence maxCmds prep tSend ctx count cmds b).2.2.filter
      Action.isSend).length = 1 ∧
    ((MCP_HciSeq_RunSequence maxCmds prep tSend ctx count cmds b).2.2.filter
      Action.isCallback).length = 0 := by
  have hle : ¬ maxCmds < count := Nat.not_lt.mpr hcount
  rcases hcore with h | h <;>
    simp [MCP_HciSeq_RunSequence, hle, hidle, prepareCurrent, sendCurrent, sendOf, h,
      MCP_HAL_MEMORY_MemCopy, Action.isPrep, Action.isSend, Action.isCallback]

/-- Witness of C1: a three-step sequence run on the context made by
`MCP_HciSeq_CreateSequence`, capacity 4, the send reporting pending. -/
theorem C1_run_idle_witness :
    (MCP_HciSeq_RunSequence 4 prepW BT_HCI_IF_STATUS_PENDING ctxW 3 seqW false).1
      = BT_HCI_IF_STATUS_PENDING ∧
    (MCP_HciSeq_RunSequence 4 prepW BT_HCI_IF_STATUS_PENDING ctxW 3 seqW false).2.1.uCommandCount
      = 3 ∧
    (MCP_HciSeq_RunSequence 4 prepW BT_HCI_IF_STATUS_PENDING ctxW 3 seqW false).2.2
      = [Action.prep 1 0, Action.sendBt 7 1 0 1 14] := by
  have h := C1_run_idle 4 prepW BT_HCI_IF_STATUS_PENDING ctxW 3 seqW false (by decide) rfl
    (Or.inl rfl)
  exact ⟨h.1, h.2.1, by decide⟩

/-- C2. Run while a sequence is running (`uCommandCount > 0`) with a count
within the capacity: nothing is called (no send, no preparation, no callback),
the status is pending, and the context is left with the cancel flag set, the new
count, index 0, the suppress flag of the call and the submitted commands in
slots `[0, count)`. -/
theorem C2_run_replaces (maxCmds : Nat) (prep : PrepSem) (tSend : BtHciIfStatus)
    (ctx : MCP_HciSeq_Context) (count : Nat) (cmds : Nat → McpHciSeqCmd) (b : Bool)
    (hcount : count ≤ maxCmds) (hrun : 0 < ctx.uCommandCount) :
    (MCP_HciSeq_RunSequence maxCmds prep tSend ctx count cmds b).1
      = BT_HCI_IF_STATUS_PENDING ∧
    (MCP_HciSeq_RunSequence maxCmds prep tSend ctx count cmds b).2.2 = [] ∧
    (MCP_HciSeq_RunSequence maxCmds prep tSend ctx count cmds b).2.1.bCancelFlag = true ∧
    (MCP_HciSeq_RunSequence maxCmds prep tSend ctx count cmds b).2.1.uCommandCount = count ∧
    (MCP_HciSeq_RunSequence maxCmds prep tSend ctx count cmds b).2.1.uCurrentCommandIdx = 0 ∧
    (MCP_HciSeq_RunSequence maxCmds prep tSend ctx count cmds b).2.1.bCallCBOnlyForLastCmd
      = b ∧
    (∀ i, i < count →
      (MCP_HciSeq_RunSequence maxCmds prep tSend ctx count cmds b).2.1.commandsSequence i
        = cmds i) ∧
    (∀ i, count ≤ i →
      (MCP_HciSeq_RunSequence maxCmds prep tSend ctx count cmds b).2.1.commandsSequence i
        = ctx.commandsSequence i) ∧
    (MCP_HciSeq_RunSequence maxCmds prep tSend ctx count cmds b).2.1.command = ctx.command := by
  have hle : ¬ maxCmds < count := Nat.not_lt.mpr hcount
  simp only [MCP_HciSeq_RunSequence, hle, hrun, if_false, if_true, gt_iff_lt,
    MCP_HAL_MEMORY_MemCopy, true_and]
  refine ⟨?_, ?_, trivial⟩
  · intro i hi
    simp [hi]
  · intro i hi
    simp [Nat.not_lt.mpr hi]

/-- Witness of C2: a three-step sequence submitted while the two-step sequence
of `runningW` has its first command in flight. -/
theorem C2_run_replaces_witness :
    (MCP_HciSeq_RunSequence 4 prepW BT_HCI_IF_STATUS_SUCCESS runningW 3 seqV true).1
      = BT_HCI_IF_STATUS_PENDING ∧
    (MCP_HciSeq_RunSequence 4 prepW BT_HCI_IF_STATUS_SUCCESS runningW 3 seqV true).2.2 = [] ∧
    (MCP_HciSeq_RunSequence 4 prepW BT_HCI_IF_STATUS_SUCCESS runningW 3 seqV true).2.1.bCancelFlag
      = true ∧
    (MCP_HciSeq_RunSequence 4 prepW BT_HCI_IF_STATUS_SUCCESS runningW 3 seqV
      true).2.1.uCommandCount = 3 := by
  have h := C2_run_replaces 4 prepW BT_HCI_IF_STATUS_SUCCESS runningW 3 seqV true
    (by decide) (by decide)
  exact ⟨h.1, h.2.1, h.2.2.1, h.2.2.2.1⟩

/-- C4. Cancellation: on a running sequencer (`uCommandCount > 0`), after
`MCP_HciSeq_CancelSequence` the completion of the command in flight, whatever
its event, makes the handler call nothing (no callback, no preparation, no
send) and leaves the sequencer idle: count 0, index 0, cancel flag clear, every
other field as it was. -/
theorem C4_cancel_then_completion (prep : PrepSem) (userCb : CbSem) (tSend : BtHciIfStatus)
    (ctx : MCP_HciSeq_Context) (ev : BtHciIfClientEvent) (hrun : 0 < ctx.uCommandCount) :
    (MCP_HciSeq_CancelSequence ctx).2 = [] ∧
    _MCP_HciSeq_callback prep userCb tSend (MCP_HciSeq_CancelSequence ctx).1 ev =
      ({ ctx with uCommandCount := 0, uCurrentCommandIdx := 0, bCancelFlag := false }, []) := by
  simp [MCP_HciSeq_CancelSequence, hrun, _MCP_HciSeq_callback, completionAck, completionNext]

/-- Witness of C4: the two-step sequence of `runningW` is cancelled while its
first command is in flight. -/
theorem C4_cancel_then_completion_witness :
    (_MCP_HciSeq_callback prepW noReentry BT_HCI_IF_STATUS_PENDING
      (MCP_HciSeq_CancelSequence runningW).1 evW).2 = [] ∧
    (_MCP_HciSeq_callback prepW noReentry BT_HCI_IF_STATUS_PENDING
      (MCP_HciSeq_CancelSequence runningW).1 evW).1.uCommandCount = 0 ∧
    (_MCP_HciSeq_callback prepW noReentry BT_HCI_IF_STATUS_PENDING
      (MCP_HciSeq_CancelSequence runningW).1 evW).1.uCurrentCommandIdx = 0 ∧
    (_MCP_HciSeq_callback prepW noReentry BT_HCI_IF_STATUS_PENDING
      (MCP_HciSeq_CancelSequence runningW).1 evW).1.bCancelFlag = false := by
  have h := (C4_cancel_then_completion prepW noReentry BT_HCI_IF_STATUS_PENDING runningW evW
    (by decide)).2
  rw [h]
  exact ⟨rfl, rfl, rfl, rfl⟩

/-- C5. `MCP_HciSeq_CancelSequence` as a function of the state: on a running
sequencer it sets the cancel flag, zeroes the count and the index and leaves
every other field; on an idle one it leaves the whole state. It calls nothing
in either case. -/
theorem C5_cancel_state (ctx : MCP_HciSeq_Context) :
    (MCP_HciSeq_CancelSequence ctx).2 = [] ∧
    (0 < ctx.uCommandCount →
      (MCP_HciSeq_CancelSequence ctx).1 =
        { handle := ctx.handle, coreId := ctx.coreId,
          commandsSequence := ctx.commandsSequence, uCommandCount := 0,
          uCurrentCommandIdx := 0, bCallCBOnlyForLastCmd := ctx.bCallCBOnlyForLastCmd,
          bCancelFlag := true, command := ctx.command }) ∧
    (ctx.uCommandCount = 0 → (MCP_HciSeq_CancelSequence ctx).1 = ctx) := by
  refine ⟨?_, ?_, ?_⟩
  · unfold MCP_HciSeq_CancelSequence
    split <;> rfl
  · intro h
    simp [MCP_HciSeq_CancelSequence, h]
  · intro h
    simp [MCP_HciSeq_CancelSequence, h]

/-- Witness of C5: cancelling the running `runningW` and the idle `ctxW`. -/
theorem C5_cancel_state_witness :
    ((MCP_HciSeq_CancelSequence runningW).1.bCancelFlag = true ∧
     (MCP_HciSeq_CancelSequence runningW).1.uCommandCount = 0 ∧
     (MCP_HciSeq_CancelSequence runningW).1.uCurrentCommandIdx = 0) ∧
    (MCP_HciSeq_CancelSequence ctxW).1 = ctxW := by
  have h1 := (C5_cancel_state runningW).2.1 (by decide)
  have h2 := (C5_cancel_state ctxW).2.2 rfl
  rw [h1]
  exact ⟨⟨rfl, rfl, rfl⟩, h2⟩

/-- C6. A submission with a count above the capacity leaves the whole context
unchanged and calls nothing. -/
theorem C6_rejected_run_atomic (maxCmds : Nat) (prep : PrepSem) (tSend : BtHciIfStatus)
    (ctx : MCP_HciSeq_Context) (count : Nat) (cmds : Nat → McpHciSeqCmd) (b : Bool)
    (hcount : maxCmds < count) :
    (MCP_HciSeq_RunSequence maxCmds prep tSend ctx count cmds b).2.1 = ctx ∧
    (MCP_HciSeq_RunSequence maxCmds prep tSend ctx count cmds b).2.2 = [] := by
  simp [MCP_HciSeq_RunSequence, hcount]

/-- Witness of C6: five commands submitted with capacity 4, on a running
sequencer. -/
theorem C6_rejected_run_atomic_witness :
    (MCP_HciSeq_RunSequence 4 prepW BT_HCI_IF_STATUS_PENDING runningW 5 seqV true).2.1
      = runningW ∧
    (MCP_HciSeq_RunSequence 4 prepW BT_HCI_IF_STATUS_PENDING runningW 5 seqV true).2.2 = [] :=
  C6_rejected_run_atomic 4 prepW BT_HCI_IF_STATUS_PENDING runningW 5 seqV true (by decide)

/-- C7, as the code has it. A submission with a count above the capacity
returns `BT_HCI_IF_STATUS_FAILED`, the generic failure status. -/
theorem C7_rejected_run_status (maxCmds : Nat) (prep : PrepSem) (tSend : BtHciIfStatus)
    (ctx : MCP_HciSeq_Context) (count : Nat) (cmds : Nat → McpHciSeqCmd) (b : Bool)
    (hcount : maxCmds < count) :
    (MCP_HciSeq_RunSequence maxCmds prep tSend ctx count cmds b).1
      = BT_HCI_IF_STATUS_FAILED := by
  simp [MCP_HciSeq_RunSequence, hcount]

/-- Witness of C7 as the code has it: five commands submitted with capacity 4. -/
theorem C7_rejected_run_status_witness :
    (MCP_HciSeq_RunSequence 4 prepW BT_HCI_IF_STATUS_PENDING ctxW 5 seqW false).1
      = BT_HCI_IF_STATUS_FAILED :=
  C7_rejected_run_status 4 prepW BT_HCI_IF_STATUS_PENDING ctxW 5 seqW false (by decide)

/-- C7 as stated fails: five commands submitted with capacity 4 on the context
made by `MCP_HciSeq_CreateSequence` do not return a status that differs from the
generic failure, the pending and the internal error status. -/
theorem C7_rejected_run_status_counterexample :
    ¬ ∃ s : BtHciIfStatus,
      s ≠ BT_HCI_IF_STATUS_FAILED ∧ s ≠ BT_HCI_IF_STATUS_PENDING ∧
      s ≠ BT_HCI_IF_STATUS_INTERNAL_ERROR ∧
      (MCP_HciSeq_RunSequence 4 prepW BT_HCI_IF_STATUS_PENDING ctxW 5 seqW false).1 = s := by
  rintro ⟨s, h1, _, _, h4⟩
  exact h1 (h4.symm.trans (by decide))

/-! ## Replacement -/

/-- C3. Replacement: on an idle sequencer (core BT or FM) the sequence A, of
at least one step, is run with its send pending; before its first completion
one or more submissions with counts within the capacity are made, the last
being the sequence B of at least one step. None of these submissions calls a
callback. When the completion is then delivered, the handler first prepares
step 0 of B and sends it, calling no callback before (none of A); only when
that send is not pending does it call a callback, that of the command of B it
just prepared. It leaves the cancel flag clear, the index 0 and the count that
of B. -/
theorem C3_replacement (maxCmds : Nat) (prep : PrepSem) (ctx : MCP_HciSeq_Context)
    (cA : Nat) (seqA : Nat → McpHciSeqCmd) (bA : Bool)
    (mids : List (Nat × (Nat → McpHciSeqCmd) × Bool × BtHciIfStatus))
    (cB : Nat) (seqB : Nat → McpHciSeqCmd) (bB : Bool) (tB : BtHciIfStatus)
    (ev : BtHciIfClientEvent) (tSend : BtHciIfStatus)
    (hidle : ctx.uCommandCount = 0)
    (hcore : ctx.coreId = MCP_HAL_CORE_ID_BT ∨ ctx.coreId = MCP_HAL_CORE_ID_FM)
    (hA1 : 1 ≤ cA) (hA : cA ≤ maxCmds) (hmids : ∀ m ∈ mids, m.1 ≤ maxCmds)
    (hB1 : 1 ≤ cB) (hB : cB ≤ maxCmds) :
    (replaceScenario maxCmds prep ctx cA seqA bA mids cB seqB bB tB).2.filter
      Action.isCallback = [] ∧
    (_MCP_HciSeq_callback prep noReentry tSend
      (replaceScenario maxCmds prep ctx cA seqA bA mids cB seqB bB tB).1 ev).2 =
      Action.prep (seqB 0).fCommandPrepCB (seqB 0).pUserData ::
      sendOf ctx.coreId ctx.handle
        (prep (seqB 0).fCommandPrepCB
          (replaceScenario maxCmds prep ctx cA seqA bA mids cB seqB bB tB).1.command
          (seqB 0).pUserData) ::
      (if tSend = BT_HCI_IF_STATUS_PENDING then []
       else [Action.callback
         (prep (seqB 0).fCommandPrepCB
           (replaceScenario maxCmds prep ctx cA seqA bA mids cB seqB bB tB).1.command
           (seqB 0).pUserData).callback
         { ev with pUserData :=
             (prep (seqB 0).fCommandPrepCB
               (replaceScenario maxCmds prep ctx cA seqA bA mids cB seqB bB tB).1.command
               (seqB 0).pUserData).pUserData } 0]) ∧
    (_MCP_HciSeq_callback prep noReentry tSend
      (replaceScenario maxCmds prep ctx cA seqA bA mids cB seqB bB tB).1 ev).1.bCancelFlag
      = false ∧
    (_MCP_HciSeq_callback prep noReentry tSend
      (replaceScenario maxCmds prep ctx cA seqA bA mids cB seqB bB tB).1
      ev).1.uCurrentCommandIdx = 0 ∧
    (_MCP_HciSeq_callback prep noReentry tSend
      (replaceScenario maxCmds prep ctx cA seqA bA mids cB seqB bB tB).1 ev).1.uCommandCount
      = cB := by
  have h1 := run_idle_fields maxCmds prep BT_HCI_IF_STATUS_PENDING ctx cA seqA bA hA hidle
  have h2 := runs_keep_pending_cancel maxCmds prep noReentry mids hmids
    (MCP_HciSeq_RunSequence maxCmds prep BT_HCI_IF_STATUS_PENDING ctx cA seqA bA).2.1
    (Or.inr (by rw [h1.1]; exact hA1))
  have h3 := run_keeps_pending_cancel maxCmds prep tB
    (exec maxCmds prep noReentry
      (MCP_HciSeq_RunSequence maxCmds prep BT_HCI_IF_STATUS_PENDING ctx cA seqA bA).2.1
      (mids.map runOp)).1 cB seqB bB hB h2.1
  have hS : (replaceScenario maxCmds prep ctx cA seqA bA mids cB seqB bB tB).1 =
      (MCP_HciSeq_RunSequence maxCmds prep tB
        (exec maxCmds prep noReentry
          (MCP_HciSeq_RunSequence maxCmds prep BT_HCI_IF_STATUS_PENDING ctx cA seqA bA).2.1
          (mids.map runOp)).1 cB seqB bB).2.1 := by
    simp [replaceScenario, exec, step, exec_append]
  have hT : (replaceScenario maxCmds prep ctx cA seqA bA mids cB seqB bB tB).2 =
      (MCP_HciSeq_RunSequence maxCmds prep BT_HCI_IF_STATUS_PENDING ctx cA seqA bA).2.2 ++
      ((exec maxCmds prep noReentry
          (MCP_HciSeq_RunSequence maxCmds prep BT_HCI_IF_STATUS_PENDING ctx cA seqA bA).2.1
          (mids.map runOp)).2 ++
        (MCP_HciSeq_RunSequence maxCmds prep tB
          (exec maxCmds prep noReentry
            (MCP_HciSeq_RunSequence maxCmds prep BT_HCI_IF_STATUS_PENDING ctx cA seqA bA).2.1
            (mids.map runOp)).1 cB seqB bB).2.2) := by
    simp [replaceScenario, exec, step, exec_append]
  have hcoreS : (replaceScenario maxCmds prep ctx cA seqA bA mids cB seqB bB tB).1.coreId
      = ctx.coreId := by
    rw [hS, h3.2.2.2.1, h2.2.1, h1.2.1]
  have hhandleS : (replaceScenario maxCmds prep ctx cA seqA bA mids cB seqB bB tB).1.handle
      = ctx.handle := by
    rw [hS, h3.2.2.2.2.1, h2.2.2.1, h1.2.2.1]
  have hslot : (replaceScenario maxCmds prep ctx cA seqA bA mids cB seqB bB tB).1.commandsSequence
      0 = seqB 0 := by
    rw [hS]
    exact h3.2.2.2.2.2.2.1 0 hB1
  have hH := handler_after_replace prep tSend
    (replaceScenario maxCmds prep ctx cA seqA bA mids cB seqB bB tB).1 ev
    (by rw [hS]; exact h3.1) (by rw [hS]; exact h3.2.2.1)
    (by rw [hS, h3.2.1]; exact hB1) (by rw [hcoreS]; exact hcore)
  refine ⟨?_, ?_, ?_, ?_, ?_⟩
  · rw [hT, List.filter_append, List.filter_append, h1.2.2.2, h2.2.2.2, h3.2.2.2.2.2.2.2]
    rfl
  · rw [hH, hslot, hcoreS, hhandleS]
  · rw [hH]
  · rw [hH]
    exact (by rw [hS]; exact h3.2.2.1)
  · rw [hH]
    exact (by rw [hS]; exact h3.2.1)

/-- Witness of C3: on the context made by `MCP_HciSeq_CreateSequence` the
three-step `seqW` is run, then an empty sequence and a one-step sequence are
submitted, then the two-step `seqV`; the completion then makes the handler
prepare and send step 0 of `seqV` and nothing else. -/
theorem C3_replacement_witness :
    (_MCP_HciSeq_callback prepW noReentry BT_HCI_IF_STATUS_PENDING
      (replaceScenario 4 prepW ctxW 3 seqW false
        [(0, seqW, false, BT_HCI_IF_STATUS_PENDING), (1, seqW, true, BT_HCI_IF_STATUS_PENDING)]
        2 seqV false BT_HCI_IF_STATUS_PENDING).1 evW).2
      = [Action.prep 51 500, Action.sendBt 7 51 500 1 14] ∧
    (_MCP_HciSeq_callback prepW noReentry BT_HCI_IF_STATUS_PENDING
      (replaceScenario 4 prepW ctxW 3 seqW false
        [(0, seqW, false, BT_HCI_IF_STATUS_PENDING), (1, seqW, true, BT_HCI_IF_STATUS_PENDING)]
        2 seqV false BT_HCI_IF_STATUS_PENDING).1 evW).1.bCancelFlag = false := by
  have h := C3_replacement 4 prepW ctxW 3 seqW false
    [(0, seqW, false, BT_HCI_IF_STATUS_PENDING), (1, seqW, true, BT_HCI_IF_STATUS_PENDING)]
    2 seqV false BT_HCI_IF_STATUS_PENDING evW BT_HCI_IF_STATUS_PENDING rfl (Or.inl rfl)
    (by decide) (by decide) (by simp) (by decide) (by decide)
  refine ⟨?_, h.2.2.1⟩
  rw [h.2.1]
  rfl

/-! ## Undisturbed runs -/

/-- C8, with the premise that the cancel flag is clear. Suppress-until-last:
an `n`-step sequence (`1 ≤ n`, within the capacity, `n` a `McpU32`) is run with
the suppress flag set on an idle sequencer whose cancel flag is clear (core BT
or FM, as every send is pending) and the `n` completions are delivered in order. Then the calls
made are the preparation and send of steps `0` to `n - 1`, each once and in
order, followed by one callback, that of step `n - 1` when it is not `NULL`,
called with the last completion event; no callback is delivered for an earlier
step. The sequencer ends idle. -/
theorem C8_suppress_until_last (maxCmds : Nat) (prep : PrepSem) (ctx : MCP_HciSeq_Context)
    (n : Nat) (cmds : Nat → McpHciSeqCmd) (evs : List BtHciIfClientEvent)
    (evLast : BtHciIfClientEvent)
    (hn1 : 1 ≤ n) (hn : n ≤ maxCmds) (hn32 : n < McpU32_MOD)
    (hidle : ctx.uCommandCount = 0) (hflag : ctx.bCancelFlag = false)
    (hcore : ctx.coreId = MCP_HAL_CORE_ID_BT ∨ ctx.coreId = MCP_HAL_CORE_ID_FM)
    (hevs : evs.length + 1 = n) :
    (runToEnd maxCmds prep ctx n cmds true (evs ++ [evLast])).2 =
      ((List.range n).map
        (specPrepSend prep cmds ctx.command ctx.coreId ctx.handle)).flatten ++
      (if (preparedAt prep cmds ctx.command (n - 1)).callback ≠ none
        then [specCallback prep cmds ctx.command (n - 1) evLast] else []) ∧
    (runToEnd maxCmds prep ctx n cmds true (evs ++ [evLast])).1.uCommandCount = 0 ∧
    (runToEnd maxCmds prep ctx n cmds true (evs ++ [evLast])).1.uCurrentCommandIdx = 0 ∧
    (runToEnd maxCmds prep ctx n cmds true (evs ++ [evLast])).1.bCancelFlag = false := by
  have hr := run_inFlight maxCmds prep ctx n cmds true hn1 hn hidle hflag hcore
  have hc := suppressed_completions maxCmds prep cmds ctx.command ctx.coreId ctx.handle n
    hcore hn32 evLast evs 0
    (MCP_HciSeq_RunSequence maxCmds prep BT_HCI_IF_STATUS_PENDING ctx n cmds true).2.1
    hr.1 (by omega)
  have hrange : List.range n = 0 :: List.range' 1 evs.length := by
    rw [List.range_eq_range', ← hevs, List.range'_succ]
  simp only [runToEnd, exec, step]
  refine ⟨?_, hc.1, hc.2.1, hc.2.2.1⟩
  rw [hc.2.2.2, hr.2, hrange]
  simp

/-- Witness of C8: the three-step `seqW` run with the suppress flag on the
context made by `MCP_HciSeq_CreateSequence`; the only callback is that of step
2, with the third event. -/
theorem C8_suppress_until_last_witness :
    (runToEnd 4 prepW ctxW 3 seqW true ([evN 0, evN 1] ++ [evN 2])).2 =
      [Action.prep 1 0, Action.sendBt 7 1 0 1 14,
       Action.prep 2 10, Action.sendBt 7 2 10 1 14,
       Action.prep 3 20, Action.sendBt 7 3 20 1 14,
       Action.callback (some 103)
         { status := BT_HCI_IF_STATUS_SUCCESS, payload := 2, pUserData := 20 } 3] ∧
    (runToEnd 4 prepW ctxW 3 seqW true ([evN 0, evN 1] ++ [evN 2])).1.uCommandCount = 0 := by
  have h := C8_suppress_until_last 4 prepW ctxW 3 seqW [evN 0, evN 1] (evN 2)
    (by decide) (by decide) (by decide) rfl rfl (Or.inl rfl) rfl
  refine ⟨?_, h.2.1⟩
  rw [h.1]
  decide

/-- C8 as stated fails on an idle sequencer whose cancel flag is set. From the
context `MCP_HciSeq_CreateSequence` makes, a run whose send fails followed by a
cancel leaves `staleW`, idle with nothing in flight. A one-step sequence run
there with the suppress flag, its callback not `NULL`, has its step sent twice
and its callback never called by the time its one completion is handled. -/
theorem C8_suppress_until_last_counterexample :
    staleW.uCommandCount = 0 ∧
    (preparedAt prepW seqV staleW.command 0).callback = some 151 ∧
    (runToEnd 4 prepW staleW 1 seqV true [evN 0]).2 =
      [Action.prep 51 500, Action.sendBt 7 51 500 1 14,
       Action.prep 51 500, Action.sendBt 7 51 500 1 14] ∧
    ((runToEnd 4 prepW staleW 1 seqV true [evN 0]).2.filter Action.isSend).length = 2 ∧
    ((runToEnd 4 prepW staleW 1 seqV true [evN 0]).2.filter Action.isCallback).length = 0 := by
  decide

/-- C9, with the premise that the cancel flag is clear. Normal run: an
`n`-step sequence (`1 ≤ n`, within the capacity, `n` a `McpU32`) whose prepared
commands all have a callback is run with the suppress flag clear on an idle
sequencer whose cancel flag is clear (core BT or FM, as every send is pending)
and the `n` completions are delivered in order. Then the calls made are, for the steps `0`
to `n - 1` in order, the preparation, the send and the callback of the step,
the callback of step `i` receiving the `i`-th event while the index is already
`i + 1`; there are exactly `n` sends and `n` callbacks, and the sequencer ends
idle. -/
theorem C9_normal_run (maxCmds : Nat) (prep : PrepSem) (ctx : MCP_HciSeq_Context)
    (n : Nat) (cmds : Nat → McpHciSeqCmd) (evs : List BtHciIfClientEvent)
    (hn1 : 1 ≤ n) (hn : n ≤ maxCmds) (hn32 : n < McpU32_MOD)
    (hidle : ctx.uCommandCount = 0) (hflag : ctx.bCancelFlag = false)
    (hcore : ctx.coreId = MCP_HAL_CORE_ID_BT ∨ ctx.coreId = MCP_HAL_CORE_ID_FM)
    (hcb : ∀ i, i < n → (preparedAt prep cmds ctx.command i).callback ≠ none)
    (hevs : evs.length = n) :
    (runToEnd maxCmds prep ctx n cmds false evs).2 =
      (List.zipWith
        (fun i ev => specPrepSend prep cmds ctx.command ctx.coreId ctx.handle i ++
          [specCallback prep cmds ctx.command i ev])
        (List.range n) evs).flatten ∧
    ((runToEnd maxCmds prep ctx n cmds false evs).2.filter Action.isPrep).length = n ∧
    ((runToEnd maxCmds prep ctx n cmds false evs).2.filter Action.isSend).length = n ∧
    ((runToEnd maxCmds prep ctx n cmds false evs).2.filter Action.isCallback).length = n ∧
    (runToEnd maxCmds prep ctx n cmds false evs).1.uCommandCount = 0 ∧
    (runToEnd maxCmds prep ctx n cmds false evs).1.uCurrentCommandIdx = 0 ∧
    (runToEnd maxCmds prep ctx n cmds false evs).1.bCancelFlag = false := by
  have hr := run_inFlight maxCmds prep ctx n cmds false hn1 hn hidle hflag hcore
  have hc := normal_completions maxCmds prep cmds ctx.command ctx.coreId ctx.handle n
    hcore hn32 hcb evs 0
    (MCP_HciSeq_RunSequence maxCmds prep BT_HCI_IF_STATUS_PENDING ctx n cmds false).2.1
    hr.1 (by omega) (by omega)
  have hz := zip_counts prep cmds ctx.command ctx.coreId ctx.handle (List.range n) evs
    (by rw [List.length_range, hevs])
  have htrace : (runToEnd maxCmds prep ctx n cmds false evs).2 =
      (List.zipWith
        (fun i ev => specPrepSend prep cmds ctx.command ctx.coreId ctx.handle i ++
          [specCallback prep cmds ctx.command i ev])
        (List.range n) evs).flatten := by
    simp only [runToEnd, exec, step]
    rw [hr.2, hc.2.2.2, List.range_eq_range', hevs]
  refine ⟨htrace, ?_, ?_, ?_, ?_, ?_, ?_⟩
  · rw [htrace, hz.1, hevs]
  · rw [htrace, hz.2.1, hevs]
  · rw [htrace, hz.2.2, hevs]
  · simp only [runToEnd, exec, step]
    exact hc.1
  · simp only [runToEnd, exec, step]
    exact hc.2.1
  · simp only [runToEnd, exec, step]
    exact hc.2.2.1

/-- Witness of C9, the three-step scenario: `seqW` run with the suppress flag
clear on the context made by `MCP_HciSeq_CreateSequence`: three sends, three
callbacks, the callback of step `i` called with index `i + 1`, and an idle
sequencer at the end. -/
theorem C9_normal_run_witness :
    (runToEnd 4 prepW ctxW 3 seqW false [evN 0, evN 1, evN 2]).2 =
      [Action.prep 1 0, Action.sendBt 7 1 0 1 14,
       Action.callback (some 101)
         { status := BT_HCI_IF_STATUS_SUCCESS, payload := 0, pUserData := 0 } 1,
       Action.prep 2 10, Action.sendBt 7 2 10 1 14,
       Action.callback (some 102)
         { status := BT_HCI_IF_STATUS_SUCCESS, payload := 1, pUserData := 10 } 2,
       Action.prep 3 20, Action.sendBt 7 3 20 1 14,
       Action.callback (some 103)
         { status := BT_HCI_IF_STATUS_SUCCESS, payload := 2, pUserData := 20 } 3] ∧
    ((runToEnd 4 prepW ctxW 3 seqW false [evN 0, evN 1, evN 2]).2.filter
      Action.isSend).length = 3 ∧
    ((runToEnd 4 prepW ctxW 3 seqW false [evN 0, evN 1, evN 2]).2.filter
      Action.isCallback).length = 3 ∧
    (runToEnd 4 prepW ctxW 3 seqW false [evN 0, evN 1, evN 2]).1.uCommandCount = 0 ∧
    (runToEnd 4 prepW ctxW 3 seqW false [evN 0, evN 1, evN 2]).1.uCurrentCommandIdx = 0 := by
  have h := C9_normal_run 4 prepW ctxW 3 seqW [evN 0, evN 1, evN 2]
    (by decide) (by decide) (by decide) rfl rfl (Or.inl rfl)
    (by
      intro i hi
      have hi3 : i = 0 ∨ i = 1 ∨ i = 2 := by omega
      rcases hi3 with h | h | h <;> subst h <;> decide)
    rfl
  refine ⟨?_, h.2.2.1, h.2.2.2.1, h.2.2.2.2.1, h.2.2.2.2.2.1⟩
  rw [h.1]
  decide

/-- C9 as stated fails on an idle sequencer whose cancel flag is set. On
`staleW` (idle, nothing in flight, reached from `MCP_HciSeq_CreateSequence` by a
run whose send fails and a cancel) the three-step `seqW`, all callbacks not
`NULL`, run with the suppress flag clear and three completions delivered, has
four sends (step 0 twice) and two callbacks, and the sequencer is not idle at
the end. -/
theorem C9_normal_run_counterexample :
    staleW.uCommandCount = 0 ∧
    (runToEnd 4 prepW staleW 3 seqW false [evN 0, evN 1, evN 2]).2 =
      [Action.prep 1 0, Action.sendBt 7 1 0 1 14,
       Action.prep 1 0, Action.sendBt 7 1 0 1 14,
       Action.callback (some 101)
         { status := BT_HCI_IF_STATUS_SUCCESS, payload := 1, pUserData := 0 } 1,
       Action.prep 2 10, Action.sendBt 7 2 10 1 14,
       Action.callback (some 102)
         { status := BT_HCI_IF_STATUS_SUCCESS, payload := 2, pUserData := 10 } 2,
       Action.prep 3 20, Action.sendBt 7 3 20 1 14] ∧
    ((runToEnd 4 prepW staleW 3 seqW false [evN 0, evN 1, evN 2]).2.filter
      Action.isSend).length = 4 ∧
    ((runToEnd 4 prepW staleW 3 seqW false [evN 0, evN 1, evN 2]).2.filter
      Action.isCallback).length = 2 ∧
    (runToEnd 4 prepW staleW 3 seqW false [evN 0, evN 1, evN 2]).1.uCommandCount = 3 := by
  decide

/-! ## Immediate failure of a send -/

/-- C10, the code at the failing input. In `runningW` step 0 of the two-step
`seqW` is in flight; its completion arrives with status success and the send of
step 1 that the handler then makes returns `BT_HCI_IF_STATUS_FAILED`. The handler
calls the callback of step 1 at once, but with the event it received, only
`pUserData` replaced: the status that callback gets is the success of the
completed step 0, not the failure of the send. -/
theorem C10_failed_send_event_status :
    evW.status = BT_HCI_IF_STATUS_SUCCESS ∧
    (_MCP_HciSeq_callback prepW noReentry BT_HCI_IF_STATUS_FAILED runningW evW).2 =
      [Action.callback (some 101)
         { status := BT_HCI_IF_STATUS_SUCCESS, payload := 77, pUserData := 0 } 1,
       Action.prep 2 10, Action.sendBt 7 2 10 1 14,
       Action.callback (some 102)
         { status := BT_HCI_IF_STATUS_SUCCESS, payload := 77, pUserData := 10 } 1] ∧
    (_MCP_HciSeq_callback prepW noReentry BT_HCI_IF_STATUS_FAILED runningW evW).2.getLast? ≠
      some (Action.callback (some 102)
         { status := BT_HCI_IF_STATUS_FAILED, payload := 77, pUserData := 10 } 1) := by
  decide

/-! ## The completion handler on any state -/

/-- The completion handler with callbacks that do not re-enter, written out:
the context after the first half, the callback delivered for the completed
command, and then either the preparation and send of the next step, with the
call of its callback when the send is not pending, or the return to idle. -/
theorem handler_noReentry (prep : PrepSem) (tSend : BtHciIfStatus)
    (ctx : MCP_HciSeq_Context) (ev : BtHciIfClientEvent) :
    _MCP_HciSeq_callback prep noReentry tSend ctx ev =
      ((completionNext prep noReentry tSend
          (if ctx.bCancelFlag = false then
            { ctx with uCurrentCommandIdx := (ctx.uCurrentCommandIdx + 1) % McpU32_MOD }
           else { ctx with bCancelFlag := false })
          { ev with pUserData :=
              if ctx.bCancelFlag = false ∧ ctx.command.callback ≠ none ∧
                  (ctx.bCallCBOnlyForLastCmd = false ∨
                    ctx.uCommandCount ≤ (ctx.uCurrentCommandIdx + 1) % McpU32_MOD)
              then ctx.command.pUserData else ev.pUserData }).1,
       (if ctx.bCancelFlag = false ∧ ctx.command.callback ≠ none ∧
            (ctx.bCallCBOnlyForLastCmd = false ∨
              ctx.uCommandCount ≤ (ctx.uCurrentCommandIdx + 1) % McpU32_MOD)
        then [Action.callback ctx.command.callback
                { ev with pUserData := ctx.command.pUserData }
                ((ctx.uCurrentCommandIdx + 1) % McpU32_MOD)]
        else []) ++
       (completionNext prep noReentry tSend
          (if ctx.bCancelFlag = false then
            { ctx with uCurrentCommandIdx := (ctx.uCurrentCommandIdx + 1) % McpU32_MOD }
           else { ctx with bCancelFlag := false })
          { ev with pUserData :=
              if ctx.bCancelFlag = false ∧ ctx.command.callback ≠ none ∧
                  (ctx.bCallCBOnlyForLastCmd = false ∨
                    ctx.uCommandCount ≤ (ctx.uCurrentCommandIdx + 1) % McpU32_MOD)
              then ctx.command.pUserData else ev.pUserData }).2) := by
  cases hf : ctx.bCancelFlag <;> cases hcb : ctx.command.callback <;>
    cases hb : ctx.bCallCBOnlyForLastCmd <;>
    by_cases hl : ctx.uCommandCount ≤ (ctx.uCurrentCommandIdx + 1) % McpU32_MOD <;>
    simp [_MCP_HciSeq_callback, completionAck, callCommandCallback_noReentry, hf, hcb, hb, hl]

/-- The second half of the handler with callbacks that do not re-enter: the
only callback it can call is that of the command it has just prepared from the
slot at the current index, with the event it was given, `pUserData` replaced by
that command's. -/
theorem completionNext_callbacks (prep : PrepSem) (tSend : BtHciIfStatus)
    (ctx : MCP_HciSeq_Context) (ev : BtHciIfClientEvent)
    (cb : Option Nat) (evc : BtHciIfClientEvent) (i : Nat)
    (hmem : Action.callback cb evc i ∈ (completionNext prep noReentry tSend ctx ev).2) :
    i = ctx.uCurrentCommandIdx ∧
    cb = (prep (ctx.commandsSequence i).fCommandPrepCB ctx.command
      (ctx.commandsSequence i).pUserData).callback ∧
    evc = { ev with pUserData :=
      (prep (ctx.commandsSequence i).fCommandPrepCB ctx.command
        (ctx.commandsSequence i).pUserData).pUserData } := by
  unfold completionNext at hmem
  simp only [prepareCurrent, sendCurrent, callCommandCallback_noReentry] at hmem
  split_ifs at hmem <;> simp at hmem <;>
    (obtain ⟨h1, h2, h3⟩ := hmem; subst h3; exact ⟨rfl, h1, h2⟩)

/-- C12. User-data restoration: every callback call the completion handler
makes (callbacks that do not re-enter) passes the received event with status
and every other field unchanged and `pUserData` replaced by the `pUserData` of
the prepared command whose callback is called: the command that completed, or,
on the immediate-failure path, the command just prepared from the slot at the
current index. -/
theorem C12_user_data_restored (prep : PrepSem) (tSend : BtHciIfStatus)
    (ctx : MCP_HciSeq_Context) (ev : BtHciIfClientEvent)
    (cb : Option Nat) (evc : BtHciIfClientEvent) (i : Nat)
    (hmem : Action.callback cb evc i ∈ (_MCP_HciSeq_callback prep noReentry tSend ctx ev).2) :
    evc.status = ev.status ∧ evc.payload = ev.payload ∧
    ((cb = ctx.command.callback ∧ evc.pUserData = ctx.command.pUserData) ∨
     (cb = (prep (ctx.commandsSequence i).fCommandPrepCB ctx.command
        (ctx.commandsSequence i).pUserData).callback ∧
      evc.pUserData = (prep (ctx.commandsSequence i).fCommandPrepCB ctx.command
        (ctx.commandsSequence i).pUserData).pUserData)) := by
  rw [handler_noReentry] at hmem
  cases hf : ctx.bCancelFlag <;>
    simp only [hf, eq_self_iff_true, if_true, true_and, Bool.true_eq_false, if_false,
      false_and, List.nil_append] at hmem
  · rcases List.mem_append.mp hmem with h | h
    · split at h
      · simp only [List.mem_singleton, Action.callback.injEq] at h
        obtain ⟨h1, h2, _⟩ := h
        subst h1 h2
        exact ⟨rfl, rfl, Or.inl ⟨rfl, rfl⟩⟩
      · simp at h
    · obtain ⟨_, h2, h3⟩ := completionNext_callbacks prep tSend _ _ cb evc i h
      refine ⟨?_, ?_, Or.inr ⟨h2, ?_⟩⟩ <;> rw [h3]
  · obtain ⟨_, h2, h3⟩ := completionNext_callbacks prep tSend _ _ cb evc i hmem
    refine ⟨?_, ?_, Or.inr ⟨h2, ?_⟩⟩ <;> rw [h3]

/-- Witness of C12: in `runningW` the completion of step 0 with the event `evW`
calls the callback of step 0 with `evW` carrying the user data 0 of step 0 in
place of the context pointer 4096. -/
theorem C12_user_data_restored_witness :
    Action.callback (some 101)
      { status := BT_HCI_IF_STATUS_SUCCESS, payload := 77, pUserData := 0 } 1 ∈
      (_MCP_HciSeq_callback prepW noReentry BT_HCI_IF_STATUS_PENDING runningW evW).2 ∧
    (({ status := BT_HCI_IF_STATUS_SUCCESS, payload := 77, pUserData := 0 } :
        BtHciIfClientEvent).status = evW.status ∧
     ({ status := BT_HCI_IF_STATUS_SUCCESS, payload := 77, pUserData := 0 } :
        BtHciIfClientEvent).payload = evW.payload) ∧
    runningW.command.pUserData = 0 ∧ evW.pUserData = 4096 := by
  have h := C12_user_data_restored prepW BT_HCI_IF_STATUS_PENDING runningW evW (some 101)
    { status := BT_HCI_IF_STATUS_SUCCESS, payload := 77, pUserData := 0 } 1 (by decide)
  exact ⟨by decide, ⟨h.1, h.2.1⟩, rfl, rfl⟩

/-- The first half of the handler does not look at the status of the event: it
leaves the same context, the same event but for the status, and the same calls
with the status replaced in the event of a callback. -/
theorem completionAck_setStatus (ctx : MCP_HciSeq_Context) (ev : BtHciIfClientEvent)
    (s : BtHciIfStatus) :
    completionAck noReentry ctx { ev with status := s } =
      ((completionAck noReentry ctx ev).1,
       { (completionAck noReentry ctx ev).2.1 with status := s },
       (completionAck noReentry ctx ev).2.2.map (Action.setStatus s)) := by
  unfold completionAck
  simp only [callCommandCallback_noReentry]
  split_ifs <;> rfl

/-- The second half of the handler does not look at the status of the event: it
leaves the same context, and the same calls with the status replaced in the
event of a callback. -/
theorem completionNext_setStatus (prep : PrepSem) (tSend : BtHciIfStatus)
    (ctx : MCP_HciSeq_Context) (ev : BtHciIfClientEvent) (s : BtHciIfStatus) :
    completionNext prep noReentry tSend ctx { ev with status := s } =
      ((completionNext prep noReentry tSend ctx ev).1,
       (completionNext prep noReentry tSend ctx ev).2.map (Action.setStatus s)) := by
  unfold completionNext
  simp only [prepareCurrent, sendCurrent, callCommandCallback_noReentry]
  split_ifs <;> simp [Action.setStatus]

/-- Replacing the status in the events of a trace changes no call that is not a
callback. -/
theorem filter_map_setStatus (s : BtHciIfStatus) (l : List Action) :
    (l.map (Action.setStatus s)).filter (fun a => !a.isCallback) =
      l.filter (fun a => !a.isCallback) := by
  induction l with
  | nil => rfl
  | cons a l ih =>
    rw [List.map_cons, List.filter_cons, List.filter_cons, ih]
    cases a <;> rfl

/-- The completion handler (callbacks that do not re-enter) on the event `ev`
with its status replaced by `s`: the same context, and the same calls with the
status replaced in the event of a callback. -/
theorem handler_setStatus (prep : PrepSem) (tSend : BtHciIfStatus)
    (ctx : MCP_HciSeq_Context) (ev : BtHciIfClientEvent) (s : BtHciIfStatus) :
    _MCP_HciSeq_callback prep noReentry tSend ctx { ev with status := s } =
      ((_MCP_HciSeq_callback prep noReentry tSend ctx ev).1,
       (_MCP_HciSeq_callback prep noReentry tSend ctx ev).2.map (Action.setStatus s)) := by
  simp only [_MCP_HciSeq_callback]
  rw [completionAck_setStatus]
  simp only []
  rw [completionNext_setStatus]
  simp only [List.map_append]

/-- C17. An asynchronous failure does not abort the sequence: for two
completion events that differ only in their status, the completion handler
(callbacks that do not re-enter) leaves the same context and makes the same
calls, preparation and send of the next step included; the one difference is
the status in the event passed to a callback. -/
theorem C17_status_independent (prep : PrepSem) (tSend : BtHciIfStatus)
    (ctx : MCP_HciSeq_Context) (ev1 ev2 : BtHciIfClientEvent)
    (hp : ev1.payload = ev2.payload) (hu : ev1.pUserData = ev2.pUserData) :
    (_MCP_HciSeq_callback prep noReentry tSend ctx ev2).1 =
      (_MCP_HciSeq_callback prep noReentry tSend ctx ev1).1 ∧
    (_MCP_HciSeq_callback prep noReentry tSend ctx ev2).2 =
      (_MCP_HciSeq_callback prep noReentry tSend ctx ev1).2.map
        (Action.setStatus ev2.status) ∧
    (_MCP_HciSeq_callback prep noReentry tSend ctx ev2).2.filter (fun a => !a.isCallback) =
      (_MCP_HciSeq_callback prep noReentry tSend ctx ev1).2.filter (fun a => !a.isCallback) := by
  have he : ev2 = { ev1 with status := ev2.status } := by
    cases ev1
    cases ev2
    simp_all
  have h := handler_setStatus prep tSend ctx ev1 ev2.status
  rw [← he] at h
  rw [h]
  exact ⟨rfl, rfl, filter_map_setStatus _ _⟩

/-- Witness of C17: in `runningW` the completion of step 0 reported as success
and reported as failure: the same context fields and the same preparation and
send of step 1. -/
theorem C17_status_independent_witness :
    (_MCP_HciSeq_callback prepW noReentry BT_HCI_IF_STATUS_PENDING runningW
        { evW with status := BT_HCI_IF_STATUS_FAILED }).1 =
      (_MCP_HciSeq_callback prepW noReentry BT_HCI_IF_STATUS_PENDING runningW evW).1 ∧
    (_MCP_HciSeq_callback prepW noReentry BT_HCI_IF_STATUS_PENDING runningW
        { evW with status := BT_HCI_IF_STATUS_FAILED }).2 =
      [Action.callback (some 101)
         { status := BT_HCI_IF_STATUS_FAILED, payload := 77, pUserData := 0 } 1,
       Action.prep 2 10, Action.sendBt 7 2 10 1 14] := by
  have h := C17_status_independent prepW BT_HCI_IF_STATUS_PENDING runningW evW
    { evW with status := BT_HCI_IF_STATUS_FAILED } rfl rfl
  exact ⟨h.1, by decide⟩

/-! ## The invariant on index and count -/

/-- C14. The invariant `uCurrentCommandIdx ≤ uCommandCount ≤
HCI_SEQ_MAX_CMDS_PER_SEQUENCE`: `MCP_HciSeq_CreateSequence` clears the cancel
flag, zeroes count and index and stores the core whatever the state was, which
establishes the invariant; `MCP_HciSeq_RunSequence` with any count, accepted or
not, `MCP_HciSeq_CancelSequence` and the completion handler (any event, any
send status, callbacks that do not re-enter) preserve it. -/
theorem C14_idx_count_invariant (maxCmds : Nat) (prep : PrepSem) (tSend : BtHciIfStatus)
    (reg : BtHciIfStatus × Nat) (raw ctx : MCP_HciSeq_Context) (hciIfObj : Nat)
    (coreId : McpHalCoreId) (n : Nat) (cmds : Nat → McpHciSeqCmd) (b : Bool)
    (ev : BtHciIfClientEvent) :
    ((MCP_HciSeq_CreateSequence reg raw hciIfObj coreId).1.bCancelFlag = false ∧
      (MCP_HciSeq_CreateSequence reg raw hciIfObj coreId).1.uCommandCount = 0 ∧
      (MCP_HciSeq_CreateSequence reg raw hciIfObj coreId).1.uCurrentCommandIdx = 0 ∧
      (MCP_HciSeq_CreateSequence reg raw hciIfObj coreId).1.coreId = coreId ∧
      IdxCountInv maxCmds (MCP_HciSeq_CreateSequence reg raw hciIfObj coreId).1) ∧
    (IdxCountInv maxCmds ctx →
      IdxCountInv maxCmds (MCP_HciSeq_RunSequence maxCmds prep tSend ctx n cmds b).2.1) ∧
    (IdxCountInv maxCmds ctx → IdxCountInv maxCmds (MCP_HciSeq_CancelSequence ctx).1) ∧
    (IdxCountInv maxCmds ctx →
      IdxCountInv maxCmds (_MCP_HciSeq_callback prep noReentry tSend ctx ev).1) := by
  refine ⟨?_, ?_, ?_, ?_⟩
  · unfold MCP_HciSeq_CreateSequence IdxCountInv
    simp only []
    split <;> simp
  · intro h
    unfold MCP_HciSeq_RunSequence IdxCountInv
    simp only [prepareCurrent, gt_iff_lt]
    split_ifs with h1 h2
    · exact h
    · exact ⟨Nat.zero_le _, Nat.not_lt.mp h1⟩
    · exact ⟨Nat.zero_le _, Nat.not_lt.mp h1⟩
  · intro h
    unfold MCP_HciSeq_CancelSequence
    split
    · exact ⟨Nat.le_refl _, Nat.zero_le _⟩
    · exact h
  · intro h
    rw [handler_noReentry]
    unfold completionNext IdxCountInv
    simp only [prepareCurrent, sendCurrent, callCommandCallback_noReentry]
    have h2 := h.2
    split_ifs <;> simp_all <;> omega

/-- Witness of C14: the invariant holds in the context made by
`MCP_HciSeq_CreateSequence` and after a run, a cancel and a completion on the
running `runningW`. -/
theorem C14_idx_count_invariant_witness :
    IdxCountInv 4 ctxW ∧
    IdxCountInv 4
      (MCP_HciSeq_RunSequence 4 prepW BT_HCI_IF_STATUS_PENDING runningW 3 seqV false).2.1 ∧
    IdxCountInv 4 (MCP_HciSeq_CancelSequence runningW).1 ∧
    IdxCountInv 4 (_MCP_HciSeq_callback prepW noReentry BT_HCI_IF_STATUS_PENDING runningW evW).1 := by
  have h := C14_idx_count_invariant 4 prepW BT_HCI_IF_STATUS_PENDING
    (BT_HCI_IF_STATUS_SUCCESS, 7) rawW runningW 1 MCP_HAL_CORE_ID_BT 3 seqV false evW
  have hinv : IdxCountInv 4 runningW := ⟨by decide, by decide⟩
  exact ⟨h.1.2.2.2.2, h.2.1 hinv, h.2.2.1 hinv, h.2.2.2 hinv⟩

/-- An accepted submission on a running context: pending is returned, nothing
is called, the cancel flag is set, count, suppress flag and first slots are the
submitted ones, the index is 0, and core, handle and prepared command are
kept. -/
theorem run_replace_fields (maxCmds : Nat) (prep : PrepSem) (tSend : BtHciIfStatus)
    (ctx : MCP_HciSeq_Context) (count : Nat) (cmds : Nat → McpHciSeqCmd) (b : Bool)
    (hcount : count ≤ maxCmds) (hrun : 0 < ctx.uCommandCount) :
    (MCP_HciSeq_RunSequence maxCmds prep tSend ctx count cmds b).1
      = BT_HCI_IF_STATUS_PENDING ∧
    (MCP_HciSeq_RunSequence maxCmds prep tSend ctx count cmds b).2.2 = [] ∧
    (MCP_HciSeq_RunSequence maxCmds prep tSend ctx count cmds b).2.1.bCancelFlag = true ∧
    (MCP_HciSeq_RunSequence maxCmds prep tSend ctx count cmds b).2.1.uCommandCount = count ∧
    (MCP_HciSeq_RunSequence maxCmds prep tSend ctx count cmds b).2.1.uCurrentCommandIdx = 0 ∧
    (MCP_HciSeq_RunSequence maxCmds prep tSend ctx count cmds b).2.1.bCallCBOnlyForLastCmd
      = b ∧
    (MCP_HciSeq_RunSequence maxCmds prep tSend ctx count cmds b).2.1.coreId = ctx.coreId ∧
    (MCP_HciSeq_RunSequence maxCmds prep tSend ctx count cmds b).2.1.handle = ctx.handle ∧
    (MCP_HciSeq_RunSequence maxCmds prep tSend ctx count cmds b).2.1.command = ctx.command ∧
    (∀ i, i < count →
      (MCP_HciSeq_RunSequence maxCmds prep tSend ctx count cmds b).2.1.commandsSequence i
        = cmds i) := by
  have hle : ¬ maxCmds < count := Nat.not_lt.mpr hcount
  simp only [MCP_HciSeq_RunSequence, hle, hrun, if_false, if_true, gt_iff_lt,
    MCP_HAL_MEMORY_MemCopy, true_and]
  intro i hi
  simp [hi]

/-! ## The empty sequence and the failed start -/

/-- C18. Run of an empty sequence (count 0) on an idle sequencer (core BT or
FM): it is not rejected and does not return early; the command buffer is left
as it was, the preparation function found in slot 0 of it is called, the
command it makes is sent, the status of that send is returned, and
`uCommandCount` is still 0. -/
theorem C18_empty_run_idle (maxCmds : Nat) (prep : PrepSem) (tSend : BtHciIfStatus)
    (ctx : MCP_HciSeq_Context) (cmds : Nat → McpHciSeqCmd) (b : Bool)
    (hidle : ctx.uCommandCount = 0)
    (hcore : ctx.coreId = MCP_HAL_CORE_ID_BT ∨ ctx.coreId = MCP_HAL_CORE_ID_FM) :
    (MCP_HciSeq_RunSequence maxCmds prep tSend ctx 0 cmds b).1 = tSend ∧
    (MCP_HciSeq_RunSequence maxCmds prep tSend ctx 0 cmds b).2.1.commandsSequence
      = ctx.commandsSequence ∧
    (MCP_HciSeq_RunSequence maxCmds prep tSend ctx 0 cmds b).2.1.uCommandCount = 0 ∧
    (MCP_HciSeq_RunSequence maxCmds prep tSend ctx 0 cmds b).2.1.command =
      prep (ctx.commandsSequence 0).fCommandPrepCB ctx.command
        (ctx.commandsSequence 0).pUserData ∧
    (MCP_HciSeq_RunSequence maxCmds prep tSend ctx 0 cmds b).2.2 =
      [Action.prep (ctx.commandsSequence 0).fCommandPrepCB (ctx.commandsSequence 0).pUserData,
       sendOf ctx.coreId ctx.handle
         (prep (ctx.commandsSequence 0).fCommandPrepCB ctx.command
           (ctx.commandsSequence 0).pUserData)] := by
  have hm : MCP_HAL_MEMORY_MemCopy ctx.commandsSequence cmds 0 = ctx.commandsSequence := by
    funext i
    simp [MCP_HAL_MEMORY_MemCopy]
  rcases hcore with h | h <;>
    simp [MCP_HciSeq_RunSequence, hidle, prepareCurrent, sendCurrent, sendOf, h, hm]

/-- Witness of C18: after a completed one-step run of `seqV`, slot 0 still
holds step 0 of `seqV`; an empty run then prepares and sends that step again,
the sequencer staying at count 0. -/
theorem C18_empty_run_idle_witness :
    (runToEnd 4 prepW ctxW 1 seqV false [evW]).1.uCommandCount = 0 ∧
    (MCP_HciSeq_RunSequence 4 prepW BT_HCI_IF_STATUS_PENDING
      (runToEnd 4 prepW ctxW 1 seqV false [evW]).1 0 seqW false).1
      = BT_HCI_IF_STATUS_PENDING ∧
    (MCP_HciSeq_RunSequence 4 prepW BT_HCI_IF_STATUS_PENDING
      (runToEnd 4 prepW ctxW 1 seqV false [evW]).1 0 seqW false).2.1.uCommandCount = 0 ∧
    (MCP_HciSeq_RunSequence 4 prepW BT_HCI_IF_STATUS_PENDING
      (runToEnd 4 prepW ctxW 1 seqV false [evW]).1 0 seqW false).2.2
      = [Action.prep 51 500, Action.sendBt 7 51 500 1 14] := by
  have h := C18_empty_run_idle 4 prepW BT_HCI_IF_STATUS_PENDING
    (runToEnd 4 prepW ctxW 1 seqV false [evW]).1 seqW false (by decide) (Or.inl (by decide))
  exact ⟨by decide, h.1, h.2.2.1, by decide⟩

/-- C19. A failed start leaves the sequencer marked as running. On an idle
sequencer a run of `n` steps (`1 ≤ n`, within the capacity) whose send returns a
status that is not pending, or on a core that is neither BT nor FM (nothing is
sent then and the status is the internal error), returns a status that is not
pending and leaves `uCommandCount = n` with no send accepted by the transport.
The next run with a count within the capacity then takes the replace branch: it
calls nothing, sets the cancel flag and returns pending. -/
theorem C19_failed_start_marked_running (maxCmds : Nat) (prep : PrepSem)
    (tSend tSend2 : BtHciIfStatus) (ctx : MCP_HciSeq_Context)
    (n : Nat) (cmds : Nat → McpHciSeqCmd) (b : Bool)
    (n2 : Nat) (cmds2 : Nat → McpHciSeqCmd) (b2 : Bool)
    (hidle : ctx.uCommandCount = 0) (hn1 : 1 ≤ n) (hn : n ≤ maxCmds) (hn2 : n2 ≤ maxCmds)
    (hfail : tSend ≠ BT_HCI_IF_STATUS_PENDING ∨
      (ctx.coreId ≠ MCP_HAL_CORE_ID_BT ∧ ctx.coreId ≠ MCP_HAL_CORE_ID_FM)) :
    (MCP_HciSeq_RunSequence maxCmds prep tSend ctx n cmds b).1 ≠ BT_HCI_IF_STATUS_PENDING ∧
    ((ctx.coreId ≠ MCP_HAL_CORE_ID_BT ∧ ctx.coreId ≠ MCP_HAL_CORE_ID_FM) →
      (MCP_HciSeq_RunSequence maxCmds prep tSend ctx n cmds b).1
        = BT_HCI_IF_STATUS_INTERNAL_ERROR ∧
      (MCP_HciSeq_RunSequence maxCmds prep tSend ctx n cmds b).2.2.filter Action.isSend = []) ∧
    (MCP_HciSeq_RunSequence maxCmds prep tSend ctx n cmds b).2.1.uCommandCount = n ∧
    acceptedSends (MCP_HciSeq_RunSequence maxCmds prep tSend ctx n cmds b).1
      (MCP_HciSeq_RunSequence maxCmds prep tSend ctx n cmds b).2.2 = 0 ∧
    (MCP_HciSeq_RunSequence maxCmds prep tSend2
      (MCP_HciSeq_RunSequence maxCmds prep tSend ctx n cmds b).2.1 n2 cmds2 b2).1
      = BT_HCI_IF_STATUS_PENDING ∧
    (MCP_HciSeq_RunSequence maxCmds prep tSend2
      (MCP_HciSeq_RunSequence maxCmds prep tSend ctx n cmds b).2.1 n2 cmds2 b2).2.2 = [] ∧
    (MCP_HciSeq_RunSequence maxCmds prep tSend2
      (MCP_HciSeq_RunSequence maxCmds prep tSend ctx n cmds b).2.1 n2 cmds2 b2).2.1.bCancelFlag
      = true := by
  have hle : ¬ maxCmds < n := Nat.not_lt.mpr hn
  have hpos : 0 < n := hn1
  have hcount : (MCP_HciSeq_RunSequence maxCmds prep tSend ctx n cmds b).2.1.uCommandCount
      = n := by
    simp [MCP_HciSeq_RunSequence, hle, hidle, prepareCurrent]
  have hstatus : (MCP_HciSeq_RunSequence maxCmds prep tSend ctx n cmds b).1
      ≠ BT_HCI_IF_STATUS_PENDING := by
    simp only [MCP_HciSeq_RunSequence, hle, hidle, if_false, gt_iff_lt, Nat.lt_irrefl,
      sendCurrent, prepareCurrent]
    rcases hfail with h | ⟨h1, h2⟩
    · split_ifs <;> simp [h]
    · simp [h1, h2]
  have hrep := run_replace_fields maxCmds prep tSend2
    (MCP_HciSeq_RunSequence maxCmds prep tSend ctx n cmds b).2.1 n2 cmds2 b2 hn2
    (by rw [hcount]; exact hpos)
  refine ⟨hstatus, ?_, hcount, ?_, ?_, ?_, ?_⟩
  · rintro ⟨h1, h2⟩
    simp [MCP_HciSeq_RunSequence, hle, hidle, prepareCurrent, sendCurrent, h1, h2,
      Action.isSend]
  · simp [acceptedSends, hstatus]
  · exact hrep.1
  · exact hrep.2.1
  · exact hrep.2.2.1

/-- Witness of C19: on the context made by `MCP_HciSeq_CreateSequence` a
two-step run whose send fails, then a three-step run. -/
theorem C19_failed_start_marked_running_witness :
    (MCP_HciSeq_RunSequence 4 prepW BT_HCI_IF_STATUS_FAILED ctxW 2 seqW false).1
      = BT_HCI_IF_STATUS_FAILED ∧
    (MCP_HciSeq_RunSequence 4 prepW BT_HCI_IF_STATUS_FAILED ctxW 2 seqW false).2.1.uCommandCount
      = 2 ∧
    (MCP_HciSeq_RunSequence 4 prepW BT_HCI_IF_STATUS_PENDING
      (MCP_HciSeq_RunSequence 4 prepW BT_HCI_IF_STATUS_FAILED ctxW 2 seqW false).2.1
      3 seqV false).1 = BT_HCI_IF_STATUS_PENDING ∧
    (MCP_HciSeq_RunSequence 4 prepW BT_HCI_IF_STATUS_PENDING
      (MCP_HciSeq_RunSequence 4 prepW BT_HCI_IF_STATUS_FAILED ctxW 2 seqW false).2.1
      3 seqV false).2.2 = [] ∧
    (MCP_HciSeq_RunSequence 4 prepW BT_HCI_IF_STATUS_PENDING
      (MCP_HciSeq_RunSequence 4 prepW BT_HCI_IF_STATUS_FAILED ctxW 2 seqW false).2.1
      3 seqV false).2.1.bCancelFlag = true := by
  have h := C19_failed_start_marked_running 4 prepW BT_HCI_IF_STATUS_FAILED
    BT_HCI_IF_STATUS_PENDING ctxW 2 seqW false 3 seqV false rfl (by decide) (by decide)
    (by decide) (Or.inl (by decide))
  exact ⟨by decide, h.2.2.1, h.2.2.2.2.1, h.2.2.2.2.2.1, h.2.2.2.2.2.2⟩

/-! ## The callback on the immediate-failure path -/

/-- C20, the code at the failing input. In `runningN` step 0 of the two-step
`seqN` is in flight and the preparation function of step 1 leaves the callback
`NULL`. When the completion of step 0 arrives and the send of step 1 fails at
once, the handler calls the callback of step 1 although it is `NULL` (line 247
has no test). On the completion path the test of line 194 holds: with the send
of step 1 pending, the completion of step 1 calls nothing. -/
theorem C20_null_callback_called :
    (_MCP_HciSeq_callback prepW noReentry BT_HCI_IF_STATUS_FAILED runningN evW).2 =
      [Action.callback (some 101)
         { status := BT_HCI_IF_STATUS_SUCCESS, payload := 77, pUserData := 30 } 1,
       Action.prep 0 31, Action.sendBt 7 0 31 1 14,
       Action.callback none
         { status := BT_HCI_IF_STATUS_SUCCESS, payload := 77, pUserData := 31 } 1] ∧
    (_MCP_HciSeq_callback prepW noReentry BT_HCI_IF_STATUS_FAILED runningN
      evW).1.command.callback = none ∧
    (_MCP_HciSeq_callback prepW noReentry BT_HCI_IF_STATUS_PENDING
      (_MCP_HciSeq_callback prepW noReentry BT_HCI_IF_STATUS_PENDING runningN evW).1
      evW).2 = [] := by
  decide

/-! ## End-to-end replacement -/

/-- An accepted run of at least one step on an idle context (core BT or FM),
whatever its cancel flag: step 0 is prepared and sent, the count is stored, and
core and handle are kept. -/
theorem run_idle_step0 (maxCmds : Nat) (prep : PrepSem) (tSend : BtHciIfStatus)
    (ctx : MCP_HciSeq_Context) (n : Nat) (cmds : Nat → McpHciSeqCmd) (b : Bool)
    (hn1 : 1 ≤ n) (hn : n ≤ maxCmds) (hidle : ctx.uCommandCount = 0)
    (hcore : ctx.coreId = MCP_HAL_CORE_ID_BT ∨ ctx.coreId = MCP_HAL_CORE_ID_FM) :
    (MCP_HciSeq_RunSequence maxCmds prep tSend ctx n cmds b).2.2 =
      specPrepSend prep cmds ctx.command ctx.coreId ctx.handle 0 ∧
    (MCP_HciSeq_RunSequence maxCmds prep tSend ctx n cmds b).2.1.command =
      preparedAt prep cmds ctx.command 0 ∧
    (MCP_HciSeq_RunSequence maxCmds prep tSend ctx n cmds b).2.1.uCommandCount = n ∧
    (MCP_HciSeq_RunSequence maxCmds prep tSend ctx n cmds b).2.1.coreId = ctx.coreId ∧
    (MCP_HciSeq_RunSequence maxCmds prep tSend ctx n cmds b).2.1.handle = ctx.handle := by
  have hle : ¬ maxCmds < n := Nat.not_lt.mpr hn
  have h0 : 0 < n := hn1
  rcases hcore with h | h <;>
    simp [MCP_HciSeq_RunSequence, hle, hidle, prepareCurrent, sendCurrent, sendOf, h,
      MCP_HAL_MEMORY_MemCopy, h0, specPrepSend, preparedAt]

/-- The calls that prepare and send a step hold one send and no callback. -/
theorem specPrepSend_counts (prep : PrepSem) (cmds : Nat → McpHciSeqCmd)
    (c0 : McpHciSeqCommand) (coreId : McpHalCoreId) (handle : Nat) (i : Nat) :
    ((specPrepSend prep cmds c0 coreId handle i).filter Action.isSend).length = 1 ∧
    ((specPrepSend prep cmds c0 coreId handle i).filter Action.isCallback).length = 0 := by
  unfold specPrepSend sendOf
  split <;> exact ⟨rfl, rfl⟩

/-- C13. End-to-end replacement: on an idle sequencer (core BT or FM) the
sequence A (`cA` steps, `1 ≤ cA` within the capacity; 3 in the scenario) is run
with its send pending; before the completion of its step 0 the sequence B of
`m` steps (`1 ≤ m` within the capacity, `m` a `McpU32`) is submitted with the
suppress flag clear; all callbacks of B are not `NULL`; then `m + 1`
completions are delivered, all sends pending. The calls made are the
preparation and send of step 0 of A, then for the steps `0` to `m - 1` of B in
order the preparation, the send and the callback of the step: `m + 1` sends,
`m` callbacks, none of them of A. The sequencer ends idle with the cancel flag
clear. -/
theorem C13_replacement_end_to_end (maxCmds : Nat) (prep : PrepSem)
    (ctx : MCP_HciSeq_Context) (cA : Nat) (seqA : Nat → McpHciSeqCmd) (bA : Bool)
    (m : Nat) (seqB : Nat → McpHciSeqCmd) (tB : BtHciIfStatus)
    (ev0 : BtHciIfClientEvent) (evs : List BtHciIfClientEvent)
    (hidle : ctx.uCommandCount = 0)
    (hcore : ctx.coreId = MCP_HAL_CORE_ID_BT ∨ ctx.coreId = MCP_HAL_CORE_ID_FM)
    (hA1 : 1 ≤ cA) (hA : cA ≤ maxCmds) (hm1 : 1 ≤ m) (hm : m ≤ maxCmds)
    (hm32 : m < McpU32_MOD)
    (hcb : ∀ i, i < m →
      (preparedAt prep seqB (preparedAt prep seqA ctx.command 0) i).callback ≠ none)
    (hevs : evs.length = m) :
    (replaceToEnd maxCmds prep ctx cA seqA bA m seqB tB ev0 evs).2 =
      specPrepSend prep seqA ctx.command ctx.coreId ctx.handle 0 ++
      (List.zipWith
        (fun i ev =>
          specPrepSend prep seqB (preparedAt prep seqA ctx.command 0) ctx.coreId ctx.handle i ++
          [specCallback prep seqB (preparedAt prep seqA ctx.command 0) i ev])
        (List.range m) evs).flatten ∧
    ((replaceToEnd maxCmds prep ctx cA seqA bA m seqB tB ev0 evs).2.filter
      Action.isSend).length = m + 1 ∧
    ((replaceToEnd maxCmds prep ctx cA seqA bA m seqB tB ev0 evs).2.filter
      Action.isCallback).length = m ∧
    (replaceToEnd maxCmds prep ctx cA seqA bA m seqB tB ev0 evs).1.uCommandCount = 0 ∧
    (replaceToEnd maxCmds prep ctx cA seqA bA m seqB tB ev0 evs).1.uCurrentCommandIdx = 0 ∧
    (replaceToEnd maxCmds prep ctx cA seqA bA m seqB tB ev0 evs).1.bCancelFlag = false := by
  have h1 := run_idle_step0 maxCmds prep BT_HCI_IF_STATUS_PENDING ctx cA seqA bA hA1 hA
    hidle hcore
  have h2 := run_replace_fields maxCmds prep tB
    (MCP_HciSeq_RunSequence maxCmds prep BT_HCI_IF_STATUS_PENDING ctx cA seqA bA).2.1
    m seqB false hm (by rw [h1.2.2.1]; exact hA1)
  obtain ⟨_, h2t, h2f, h2c, h2i, h2b, h2core, h2h, h2cmd, h2s⟩ := h2
  have hcore2 : (MCP_HciSeq_RunSequence maxCmds prep tB
      (MCP_HciSeq_RunSequence maxCmds prep BT_HCI_IF_STATUS_PENDING ctx cA seqA bA).2.1
      m seqB false).2.1.coreId = ctx.coreId := by rw [h2core, h1.2.2.2.1]
  have hh2 : (MCP_HciSeq_RunSequence maxCmds prep tB
      (MCP_HciSeq_RunSequence maxCmds prep BT_HCI_IF_STATUS_PENDING ctx cA seqA bA).2.1
      m seqB false).2.1.handle = ctx.handle := by rw [h2h, h1.2.2.2.2]
  have hcmd2 : (MCP_HciSeq_RunSequence maxCmds prep tB
      (MCP_HciSeq_RunSequence maxCmds prep BT_HCI_IF_STATUS_PENDING ctx cA seqA bA).2.1
      m seqB false).2.1.command = preparedAt prep seqA ctx.command 0 := by rw [h2cmd, h1.2.1]
  have h3 := handler_after_replace prep BT_HCI_IF_STATUS_PENDING
    (MCP_HciSeq_RunSequence maxCmds prep tB
      (MCP_HciSeq_RunSequence maxCmds prep BT_HCI_IF_STATUS_PENDING ctx cA seqA bA).2.1
      m seqB false).2.1 ev0 h2f h2i (by rw [h2c]; exact hm1) (by rw [hcore2]; exact hcore)
  have hin : InFlight prep seqB (preparedAt prep seqA ctx.command 0) ctx.coreId ctx.handle
      false m 0
      (_MCP_HciSeq_callback prep noReentry BT_HCI_IF_STATUS_PENDING
        (MCP_HciSeq_RunSequence maxCmds prep tB
          (MCP_HciSeq_RunSequence maxCmds prep BT_HCI_IF_STATUS_PENDING ctx cA seqA bA).2.1
          m seqB false).2.1 ev0).1 := by
    rw [h3]
    refine ⟨rfl, h2c, h2i, hcore2, hh2, h2b, h2s, ?_⟩
    simp only [h2s 0 hm1, hcmd2, preparedAt]
  have h3t : (_MCP_HciSeq_callback prep noReentry BT_HCI_IF_STATUS_PENDING
        (MCP_HciSeq_RunSequence maxCmds prep tB
          (MCP_HciSeq_RunSequence maxCmds prep BT_HCI_IF_STATUS_PENDING ctx cA seqA bA).2.1
          m seqB false).2.1 ev0).2 =
      specPrepSend prep seqB (preparedAt prep seqA ctx.command 0) ctx.coreId ctx.handle 0 := by
    rw [h3]
    simp only [h2s 0 hm1, hcmd2, hcore2, hh2, specPrepSend, preparedAt, if_true]
  have hc := normal_completions maxCmds prep seqB (preparedAt prep seqA ctx.command 0)
    ctx.coreId ctx.handle m hcore hm32 hcb evs 0 _ hin (by omega) (by omega)
  have hz := zip_counts prep seqB (preparedAt prep seqA ctx.command 0) ctx.coreId ctx.handle
    (List.range m) evs (by rw [List.length_range, hevs])
  have hsp := specPrepSend_counts prep seqA ctx.command ctx.coreId ctx.handle 0
  have htrace : (replaceToEnd maxCmds prep ctx cA seqA bA m seqB tB ev0 evs).2 =
      specPrepSend prep seqA ctx.command ctx.coreId ctx.handle 0 ++
      (List.zipWith
        (fun i ev =>
          specPrepSend prep seqB (preparedAt prep seqA ctx.command 0) ctx.coreId ctx.handle i ++
          [specCallback prep seqB (preparedAt prep seqA ctx.command 0) i ev])
        (List.range m) evs).flatten := by
    simp only [replaceToEnd, exec, step, List.map_cons]
    rw [h1.1, h2t, h3t, List.nil_append, hc.2.2.2, List.range_eq_range', hevs]
  refine ⟨htrace, ?_, ?_, ?_, ?_, ?_⟩
  · rw [htrace, List.filter_append, List.length_append, hsp.1, hz.2.1, hevs]
    omega
  · rw [htrace, List.filter_append, List.length_append, hsp.2, hz.2.2, hevs]
    omega
  · simp only [replaceToEnd, exec, step, List.map_cons]
    exact hc.1
  · simp only [replaceToEnd, exec, step, List.map_cons]
    exact hc.2.1
  · simp only [replaceToEnd, exec, step, List.map_cons]
    exact hc.2.2.1

/-- Witness of C13, the scenario: the three-step `seqW` is run on the context
made by `MCP_HciSeq_CreateSequence`, the two-step `seqV` is submitted before
the first completion, and three completions follow: step 0 of `seqW` and the
two steps of `seqV` are sent, the two callbacks are those of `seqV`. -/
theorem C13_replacement_end_to_end_witness :
    (replaceToEnd 4 prepW ctxW 3 seqW false 2 seqV BT_HCI_IF_STATUS_PENDING (evN 0)
      [evN 1, evN 2]).2 =
      [Action.prep 1 0, Action.sendBt 7 1 0 1 14,
       Action.prep 51 500, Action.sendBt 7 51 500 1 14,
       Action.callback (some 151)
         { status := BT_HCI_IF_STATUS_SUCCESS, payload := 1, pUserData := 500 } 1,
       Action.prep 52 501, Action.sendBt 7 52 501 1 14,
       Action.callback (some 152)
         { status := BT_HCI_IF_STATUS_SUCCESS, payload := 2, pUserData := 501 } 2] ∧
    ((replaceToEnd 4 prepW ctxW 3 seqW false 2 seqV BT_HCI_IF_STATUS_PENDING (evN 0)
      [evN 1, evN 2]).2.filter Action.isCallback).length = 2 ∧
    (replaceToEnd 4 prepW ctxW 3 seqW false 2 seqV BT_HCI_IF_STATUS_PENDING (evN 0)
      [evN 1, evN 2]).1.uCommandCount = 0 ∧
    (replaceToEnd 4 prepW ctxW 3 seqW false 2 seqV BT_HCI_IF_STATUS_PENDING (evN 0)
      [evN 1, evN 2]).1.bCancelFlag = false := by
  have h := C13_replacement_end_to_end 4 prepW ctxW 3 seqW false 2 seqV
    BT_HCI_IF_STATUS_PENDING (evN 0) [evN 1, evN 2] rfl (Or.inl rfl)
    (by decide) (by decide) (by decide) (by decide) (by decide)
    (by
      intro i hi
      have hi2 : i = 0 ∨ i = 1 := by omega
      rcases hi2 with h | h <;> subst h <;> decide)
    rfl
  exact ⟨by decide, h.2.2.1, h.2.2.2.1, h.2.2.2.2.2⟩

/-! ## Run from inside a callback -/

/-- A callback that runs a new sequence B from inside the completion handler:
on a running context with the cancel flag clear, a callback that is not `NULL`
and is delivered (suppress flag clear), core BT or FM and sends pending, the
run takes the replace branch, because `uCommandCount` is only zeroed after the
callback; the handler then prepares and sends step 0 of B and returns with the
cancel flag still set. -/
theorem handler_reentrant_run (maxCmds : Nat) (prep : PrepSem) (userCb : CbSem)
    (ctx : MCP_HciSeq_Context) (ev : BtHciIfClientEvent)
    (cB : Nat) (seqB : Nat → McpHciSeqCmd) (bB : Bool) (tRun : BtHciIfStatus) (f : Nat)
    (hcb : ctx.command.callback = some f)
    (hre : ∀ e c, userCb f e c = (MCP_HciSeq_RunSequence maxCmds prep tRun c cB seqB bB).2)
    (hflag : ctx.bCancelFlag = false) (hsup : ctx.bCallCBOnlyForLastCmd = false)
    (hrun : 0 < ctx.uCommandCount) (hB1 : 1 ≤ cB) (hB : cB ≤ maxCmds)
    (hcore : ctx.coreId = MCP_HAL_CORE_ID_BT ∨ ctx.coreId = MCP_HAL_CORE_ID_FM) :
    (_MCP_HciSeq_callback prep userCb BT_HCI_IF_STATUS_PENDING ctx ev).1.bCancelFlag = true ∧
    (_MCP_HciSeq_callback prep userCb BT_HCI_IF_STATUS_PENDING ctx ev).1.uCurrentCommandIdx
      = 0 ∧
    (_MCP_HciSeq_callback prep userCb BT_HCI_IF_STATUS_PENDING ctx ev).1.uCommandCount = cB ∧
    (_MCP_HciSeq_callback prep userCb BT_HCI_IF_STATUS_PENDING ctx ev).2 =
      [Action.callback (some f) { ev with pUserData := ctx.command.pUserData }
         ((ctx.uCurrentCommandIdx + 1) % McpU32_MOD),
       Action.prep (seqB 0).fCommandPrepCB (seqB 0).pUserData,
       sendOf ctx.coreId ctx.handle
         (prep (seqB 0).fCommandPrepCB ctx.command (seqB 0).pUserData)] := by
  have hle : ¬ maxCmds < cB := Nat.not_lt.mpr hB
  have h0 : 0 < cB := hB1
  rcases hcore with h | h <;>
    simp [_MCP_HciSeq_callback, completionAck, completionNext, callCommandCallback, hcb, hre,
      hflag, hsup, MCP_HciSeq_RunSequence, hle, hrun, h0, prepareCurrent, sendCurrent, sendOf,
      h, MCP_HAL_MEMORY_MemCopy]

/-- C16, the code at the failing input. In `runningW` step 0 of the two-step
`seqW` is in flight, the suppress flag is clear and every send is pending. The
callback of step 0, called by the handler for the completion of step 0, runs
the two-step `seqV`. When the handler returns, step 0 of `seqV` has been sent
but the cancel flag is set. The next completion, that of step 0 of `seqV`,
therefore calls no callback and does not advance: the index stays 0 and step 0
of `seqV` is prepared and sent a second time. -/
theorem C16_reentrant_run_stale_flag :
    (_MCP_HciSeq_callback prepW cbRunsV BT_HCI_IF_STATUS_PENDING runningW (evN 0)).2 =
      [Action.callback (some 101)
         { status := BT_HCI_IF_STATUS_SUCCESS, payload := 0, pUserData := 0 } 1,
       Action.prep 51 500, Action.sendBt 7 51 500 1 14] ∧
    (_MCP_HciSeq_callback prepW cbRunsV BT_HCI_IF_STATUS_PENDING runningW
      (evN 0)).1.bCancelFlag = true ∧
    (_MCP_HciSeq_callback prepW cbRunsV BT_HCI_IF_STATUS_PENDING
      (_MCP_HciSeq_callback prepW cbRunsV BT_HCI_IF_STATUS_PENDING runningW (evN 0)).1
      (evN 1)).2 = [Action.prep 51 500, Action.sendBt 7 51 500 1 14] ∧
    (_MCP_HciSeq_callback prepW cbRunsV BT_HCI_IF_STATUS_PENDING
      (_MCP_HciSeq_callback prepW cbRunsV BT_HCI_IF_STATUS_PENDING runningW (evN 0)).1
      (evN 1)).1.uCurrentCommandIdx = 0 := by
  decide

/-! ## Commands in flight -/

/-- C11, the code at the failing input. On the context made by
`MCP_HciSeq_CreateSequence` a one-step sequence is run (send pending: one
command in flight), the sequence is cancelled, and before the completion of the
cancelled command a second one-step sequence is run: `uCommandCount` being 0,
the run sends at once and two commands are in flight. When a completion is then
delivered the handler, finding the cancel flag set, prepares and sends step 0
of the second sequence a second time. -/
theorem C11_two_commands_in_flight :
    (play (Op.allowed 4) 4 prepW noReentry ctxW 0
      [Op.run 1 seqW false BT_HCI_IF_STATUS_PENDING, Op.cancel]).map Prod.snd = some 1 ∧
    (play (Op.allowed 4) 4 prepW noReentry ctxW 0
      [Op.run 1 seqW false BT_HCI_IF_STATUS_PENDING, Op.cancel,
       Op.run 1 seqV false BT_HCI_IF_STATUS_PENDING]).map Prod.snd = some 2 ∧
    (play (Op.allowed 4) 4 prepW noReentry ctxW 0
      [Op.run 1 seqW false BT_HCI_IF_STATUS_PENDING, Op.cancel,
       Op.run 1 seqV false BT_HCI_IF_STATUS_PENDING,
       Op.complete (evN 0) BT_HCI_IF_STATUS_PENDING]).map Prod.snd = some 2 ∧
    (exec 4 prepW noReentry ctxW
      [Op.run 1 seqW false BT_HCI_IF_STATUS_PENDING, Op.cancel,
       Op.run 1 seqV false BT_HCI_IF_STATUS_PENDING,
       Op.complete (evN 0) BT_HCI_IF_STATUS_PENDING]).2 =
      [Action.prep 1 0, Action.sendBt 7 1 0 1 14,
       Action.prep 51 500, Action.sendBt 7 51 500 1 14,
       Action.prep 51 500, Action.sendBt 7 51 500 1 14] := by
  decide

/-- C15 as stated fails in both directions. From the context made by
`MCP_HciSeq_CreateSequence`: after a run with a pending send and a cancel,
`uCommandCount` is 0 while one command is in flight; after a run whose send
fails at once, `uCommandCount` is 1 while nothing is in flight. -/
theorem C15_idle_iff_nothing_in_flight_counterexample :
    (play (Op.allowed 4) 4 prepW noReentry ctxW 0
      [Op.run 1 seqW false BT_HCI_IF_STATUS_PENDING, Op.cancel]).map
        (fun r => (r.1.uCommandCount, r.2)) = some (0, 1) ∧
    (play (Op.allowed 4) 4 prepW noReentry ctxW 0
      [Op.run 1 seqW false BT_HCI_IF_STATUS_FAILED]).map
        (fun r => (r.1.uCommandCount, r.2)) = some (1, 0) := by
  decide

/-- The preparation and the send of a step hold one send. -/
theorem prep_send_one_send (a b : Nat) (coreId : McpHalCoreId) (handle : Nat)
    (cmd : McpHciSeqCommand) (l : List Action) :
    ((l ++ [Action.prep a b, sendOf coreId handle cmd]).filter Action.isSend).length =
      (l.filter Action.isSend).length + 1 := by
  rw [List.filter_append, List.length_append]
  unfold sendOf
  split <;> rfl

/-- The callback delivered for a completed command is not a send. -/
theorem deliveredCallback_no_send (ctx : MCP_HciSeq_Context) (ev : BtHciIfClientEvent) :
    (deliveredCallback ctx ev).filter Action.isSend = [] := by
  unfold deliveredCallback
  split <;> rfl

/-- An operation of an interleaving without cancel and without failure keeps
the invariant `PlainInv`. -/
theorem plain_step (maxCmds : Nat) (prep : PrepSem) (hmax : maxCmds < McpU32_MOD)
    (ctx : MCP_HciSeq_Context) (k : Nat) (op : Op)
    (hinv : PlainInv maxCmds ctx k) (hop : Op.plain maxCmds k op = true) :
    PlainInv maxCmds (step maxCmds prep noReentry ctx op).1
      (inFlightAfter maxCmds prep noReentry ctx k op) := by
  obtain ⟨hcore, hst⟩ := hinv
  cases op with
  | cancel => simp [Op.plain] at hop
  | run n cmds b t =>
    simp only [Op.plain, Bool.and_eq_true, decide_eq_true_eq] at hop
    obtain ⟨⟨hn1, hn⟩, ht⟩ := hop
    subst ht
    have hpos : 0 < n := hn1
    simp only [step, inFlightAfter, Op.sendStatus, acceptedSends, if_true]
    rcases hst with ⟨hidle, hk⟩ | ⟨hrun, _, hk, _, _⟩
    · have h := run_idle_step0 maxCmds prep BT_HCI_IF_STATUS_PENDING ctx n cmds b hn1 hn
        hidle hcore
      have hs := specPrepSend_counts prep cmds ctx.command ctx.coreId ctx.handle 0
      have hidx : (MCP_HciSeq_RunSequence maxCmds prep BT_HCI_IF_STATUS_PENDING ctx n cmds
          b).2.1.uCurrentCommandIdx = 0 := by
        simp [MCP_HciSeq_RunSequence, Nat.not_lt.mpr hn, hidle, prepareCurrent]
      refine ⟨by rw [h.2.2.2.1]; exact hcore, Or.inr ⟨?_, ?_, ?_, ?_, ?_⟩⟩
      · rw [h.2.2.1]; exact hpos
      · rw [h.2.2.1]; exact hn
      · rw [h.1, hs.1, hk]
      · rw [h.2.2.1, hidx]; exact hpos
      · intro _; exact hidx
    · have h := run_replace_fields maxCmds prep BT_HCI_IF_STATUS_PENDING ctx n cmds b hn hrun
      refine ⟨by rw [h.2.2.2.2.2.2.1]; exact hcore, Or.inr ⟨?_, ?_, ?_, ?_, ?_⟩⟩
      · rw [h.2.2.2.1]; exact hpos
      · rw [h.2.2.2.1]; exact hn
      · rw [h.2.1, hk]; rfl
      · rw [h.2.2.2.1, h.2.2.2.2.1]; exact hpos
      · intro _; exact h.2.2.2.2.1
  | complete ev t =>
    simp only [Op.plain, Bool.and_eq_true, decide_eq_true_eq] at hop
    obtain ⟨hk0, ht⟩ := hop
    subst ht
    simp only [step, inFlightAfter, Op.sendStatus, acceptedSends, if_true]
    rcases hst with ⟨_, hk⟩ | ⟨hrun, hle, hk, hidx, hfl⟩
    · omega
    · subst hk
      cases hf : ctx.bCancelFlag
      · have hlt : ctx.uCurrentCommandIdx + 1 < McpU32_MOD := by omega
        have h := handler_step prep ctx ev hf hlt hcore
        by_cases hnext : ctx.uCurrentCommandIdx + 1 < ctx.uCommandCount
        · rw [if_pos hnext] at h
          rw [h]
          refine ⟨hcore, Or.inr ⟨hrun, hle, ?_, hnext, ?_⟩⟩
          · rw [prep_send_one_send, deliveredCallback_no_send]
            rfl
          · intro hc
            simp [hf] at hc
        · rw [if_neg hnext] at h
          rw [h]
          refine ⟨hcore, Or.inl ⟨rfl, ?_⟩⟩
          rw [deliveredCallback_no_send]
          rfl
      · have hi0 := hfl hf
        have h := handler_after_replace prep BT_HCI_IF_STATUS_PENDING ctx ev hf hi0 hrun hcore
        rw [h]
        refine ⟨hcore, Or.inr ⟨hrun, hle, ?_, hidx, fun _ => hi0⟩⟩
        have hs := prep_send_one_send (ctx.commandsSequence 0).fCommandPrepCB
          (ctx.commandsSequence 0).pUserData ctx.coreId ctx.handle
          (prep (ctx.commandsSequence 0).fCommandPrepCB ctx.command
            (ctx.commandsSequence 0).pUserData) []
        simpa using hs

/-- An interleaving without cancel and without failure keeps the invariant
`PlainInv`. -/
theorem plain_play (maxCmds : Nat) (prep : PrepSem) (hmax : maxCmds < McpU32_MOD)
    (ops : List Op) :
    ∀ (ctx : MCP_HciSeq_Context) (k : Nat) (ctx2 : MCP_HciSeq_Context) (k2 : Nat),
      PlainInv maxCmds ctx k →
      play (Op.plain maxCmds) maxCmds prep noReentry ctx k ops = some (ctx2, k2) →
      PlainInv maxCmds ctx2 k2 := by
  induction ops with
  | nil =>
    intro ctx k ctx2 k2 hinv hplay
    simp only [play, Option.some.injEq, Prod.mk.injEq] at hplay
    obtain ⟨h1, h2⟩ := hplay
    subst h1 h2
    exact hinv
  | cons op ops ih =>
    intro ctx k ctx2 k2 hinv hplay
    simp only [play] at hplay
    by_cases hop : Op.plain maxCmds k op = true
    · rw [if_pos hop] at hplay
      exact ih _ _ ctx2 k2 (plain_step maxCmds prep hmax ctx k op hinv hop) hplay
    · rw [if_neg hop] at hplay
      exact absurd hplay (by simp)

/-- C15, for interleavings without cancel and without failure. From the
context made by `MCP_HciSeq_CreateSequence` for the BT or the FM core, after
any list of runs with counts from 1 to the capacity (a `McpU32`) and of
completions, each delivered only while a command is in flight, every send
being pending and callbacks not re-entering: `uCommandCount` is 0 exactly when
no command is in flight. -/
theorem C15_idle_iff_nothing_in_flight (maxCmds : Nat) (prep : PrepSem)
    (reg : BtHciIfStatus × Nat) (raw : MCP_HciSeq_Context) (hciIfObj : Nat)
    (coreId : McpHalCoreId) (ops : List Op) (ctx : MCP_HciSeq_Context) (k : Nat)
    (hmax : maxCmds < McpU32_MOD)
    (hcore : coreId = MCP_HAL_CORE_ID_BT ∨ coreId = MCP_HAL_CORE_ID_FM)
    (hplay : play (Op.plain maxCmds) maxCmds prep noReentry
      (MCP_HciSeq_CreateSequence reg raw hciIfObj coreId).1 0 ops = some (ctx, k)) :
    ctx.uCommandCount = 0 ↔ k = 0 := by
  have h0 : PlainInv maxCmds (MCP_HciSeq_CreateSequence reg raw hciIfObj coreId).1 0 := by
    unfold MCP_HciSeq_CreateSequence PlainInv
    rcases hcore with h | h <;> simp [h]
  have hinv := plain_play maxCmds prep hmax ops _ 0 ctx k h0 hplay
  rcases hinv.2 with ⟨h1, h2⟩ | ⟨h1, _, h2, _, _⟩
  · exact ⟨fun _ => h2, fun _ => h1⟩
  · constructor
    · intro h
      omega
    · intro h
      omega

/-- Witness of C15: from the context made by `MCP_HciSeq_CreateSequence` for
the BT core, a two-step run, a replacement by a one-step sequence and the first
completion leave one command in flight and the count 1; the second completion
leaves nothing in flight and the count 0. -/
theorem C15_idle_iff_nothing_in_flight_witness :
    (((exec 4 prepW noReentry ctxW
        [Op.run 2 seqW false BT_HCI_IF_STATUS_PENDING,
         Op.run 1 seqV false BT_HCI_IF_STATUS_PENDING,
         Op.complete (evN 0) BT_HCI_IF_STATUS_PENDING]).1.uCommandCount = 0 ↔ 1 = 0) ∧
      (exec 4 prepW noReentry ctxW
        [Op.run 2 seqW false BT_HCI_IF_STATUS_PENDING,
         Op.run 1 seqV false BT_HCI_IF_STATUS_PENDING,
         Op.complete (evN 0) BT_HCI_IF_STATUS_PENDING]).1.uCommandCount = 1) ∧
    (((exec 4 prepW noReentry ctxW
        [Op.run 2 seqW false BT_HCI_IF_STATUS_PENDING,
         Op.run 1 seqV false BT_HCI_IF_STATUS_PENDING,
         Op.complete (evN 0) BT_HCI_IF_STATUS_PENDING,
         Op.complete (evN 1) BT_HCI_IF_STATUS_PENDING]).1.uCommandCount = 0 ↔ 0 = 0) ∧
      (exec 4 prepW noReentry ctxW
        [Op.run 2 seqW false BT_HCI_IF_STATUS_PENDING,
         Op.run 1 seqV false BT_HCI_IF_STATUS_PENDING,
         Op.complete (evN 0) BT_HCI_IF_STATUS_PENDING,
         Op.complete (evN 1) BT_HCI_IF_STATUS_PENDING]).1.uCommandCount = 0) :=
  ⟨⟨C15_idle_iff_nothing_in_flight 4 prepW (BT_HCI_IF_STATUS_SUCCESS, 7) rawW 1
      MCP_HAL_CORE_ID_BT
      [Op.run 2 seqW false BT_HCI_IF_STATUS_PENDING,
       Op.run 1 seqV false BT_HCI_IF_STATUS_PENDING,
       Op.complete (evN 0) BT_HCI_IF_STATUS_PENDING] _ 1 (by decide) (Or.inl rfl) rfl,
    by decide⟩,
   ⟨C15_idle_iff_nothing_in_flight 4 prepW (BT_HCI_IF_STATUS_SUCCESS, 7) rawW 1
      MCP_HAL_CORE_ID_BT
      [Op.run 2 seqW false BT_HCI_IF_STATUS_PENDING,
       Op.run 1 seqV false BT_HCI_IF_STATUS_PENDING,
       Op.complete (evN 0) BT_HCI_IF_STATUS_PENDING,
       Op.complete (evN 1) BT_HCI_IF_STATUS_PENDING] _ 0 (by decide) (Or.inl rfl) rfl,
    by decide⟩⟩

end HciSeq
